import Mathlib

/-!
Verification development for a small ray tracer.

The source is embedded shallowly over the real numbers: `f64` values become
`ℝ`, `f64::sqrt` becomes `Real.sqrt`, the `f64::INFINITY` / `f64::NEG_INFINITY`
sentinels of the box slab scan become `⊤` / `⊥` in `EReal`, and fallible
intersection routines return `Option HitInfo`.  Struct and field names follow
the source (`src/math.rs`, `src/material.rs`, `src/shapes/*`, `src/scene.rs`,
`src/render.rs`, `src/ppm.rs`).
-/

noncomputable section

/-- 3D vector for positions, directions, and colors (src/math.rs `Vec3`). -/
structure Vec3 where
  x : ℝ
  y : ℝ
  z : ℝ
deriving DecidableEq

instance : Add Vec3 := ⟨fun a b => ⟨a.x + b.x, a.y + b.y, a.z + b.z⟩⟩

instance : Sub Vec3 := ⟨fun a b => ⟨a.x - b.x, a.y - b.y, a.z - b.z⟩⟩

instance : Neg Vec3 := ⟨fun a => ⟨-a.x, -a.y, -a.z⟩⟩

/-- `impl Mul<f64> for Vec3`: componentwise scaling. -/
instance : HMul Vec3 ℝ Vec3 := ⟨fun v s => ⟨v.x * s, v.y * s, v.z * s⟩⟩

/-- `impl Mul<Vec3> for f64`. -/
instance : HMul ℝ Vec3 Vec3 := ⟨fun s v => v * s⟩

/-- `impl Div<f64> for Vec3`. -/
instance : HDiv Vec3 ℝ Vec3 := ⟨fun v s => ⟨v.x / s, v.y / s, v.z / s⟩⟩

/-- `Vec3::zero()`. -/
def Vec3.zero : Vec3 := ⟨0, 0, 0⟩

/-- `Vec3::unit_y()`. -/
def Vec3.unit_y : Vec3 := ⟨0, 1, 0⟩

/-- `Vec3::dot`. -/
def Vec3.dot (a b : Vec3) : ℝ := a.x * b.x + a.y * b.y + a.z * b.z

/-- `Vec3::length_squared`. -/
def Vec3.length_squared (v : Vec3) : ℝ := v.x * v.x + v.y * v.y + v.z * v.z

/-- `Vec3::length`. -/
def Vec3.length (v : Vec3) : ℝ := Real.sqrt (v.x * v.x + v.y * v.y + v.z * v.z)

/-- `Vec3::normalize`: divide by the length when it is positive, otherwise
return the vector unchanged. -/
def Vec3.normalize (v : Vec3) : Vec3 :=
  let len := v.length
  if len > 0 then v / len else v

/-- `Ray` (src/math.rs). -/
structure Ray where
  origin : Vec3
  direction : Vec3

/-- `Ray::at`. -/
def Ray.at (r : Ray) (t : ℝ) : Vec3 := r.origin + r.direction * t

/-- `Material` (src/material.rs). -/
structure Material where
  albedo : Vec3
  specular : ℝ
  shininess : ℝ
  reflectivity : ℝ

/-- `HitInfo` (src/shapes/mod.rs). -/
structure HitInfo where
  t : ℝ
  point : Vec3
  normal : Vec3
  material : Material

/-- `Transform` (src/shapes/mod.rs): translation, Euler rotation, scale. -/
structure Transform where
  translation : Vec3
  rotation : Vec3
  scale : Vec3

/-- `Transform::new()`: identity placement. -/
def Transform.new : Transform := ⟨Vec3.zero, Vec3.zero, ⟨1, 1, 1⟩⟩

/-- `Transform::apply_to_point`: translation and (per-axis) scale only. -/
def Transform.apply_to_point (tr : Transform) (point : Vec3) : Vec3 :=
  ⟨point.x * tr.scale.x + tr.translation.x,
   point.y * tr.scale.y + tr.translation.y,
   point.z * tr.scale.z + tr.translation.z⟩

/-- `Transform::inverse_transform_ray`. -/
def Transform.inverse_transform_ray (tr : Transform) (ray : Ray) : Ray :=
  ⟨⟨(ray.origin.x - tr.translation.x) * (1 / tr.scale.x),
    (ray.origin.y - tr.translation.y) * (1 / tr.scale.y),
    (ray.origin.z - tr.translation.z) * (1 / tr.scale.z)⟩,
   ⟨ray.direction.x * (1 / tr.scale.x),
    ray.direction.y * (1 / tr.scale.y),
    ray.direction.z * (1 / tr.scale.z)⟩⟩

/-- `Sphere` (src/shapes/sphere.rs). -/
structure Sphere where
  center : Vec3
  radius : ℝ
  material : Material
  transform : Transform

/-- The identity-placement test `self.transform.translation == Vec3::zero()
&& self.transform.scale == Vec3::new(1.0, 1.0, 1.0)` used by
`Sphere::intersect`. -/
def Sphere.identityPlacement (s : Sphere) : Prop :=
  s.transform.translation = Vec3.zero ∧ s.transform.scale = (⟨1, 1, 1⟩ : Vec3)

instance (s : Sphere) : Decidable s.identityPlacement := by
  unfold Sphere.identityPlacement
  infer_instance

/-- `local_ray` of `Sphere::intersect`: the ray moved to object space unless
the placement is the identity. -/
def Sphere.localRay (s : Sphere) (ray : Ray) : Ray :=
  if s.identityPlacement then ray else s.transform.inverse_transform_ray ray

/-- Quadratic coefficient `a = direction · direction` of `Sphere::intersect`. -/
def Sphere.qa (s : Sphere) (ray : Ray) : ℝ :=
  (s.localRay ray).direction.dot (s.localRay ray).direction

/-- Quadratic coefficient `b = 2 · oc · direction` of `Sphere::intersect`. -/
def Sphere.qb (s : Sphere) (ray : Ray) : ℝ :=
  2 * ((s.localRay ray).origin - s.center).dot (s.localRay ray).direction

/-- Quadratic coefficient `c = oc · oc − r²` of `Sphere::intersect`. -/
def Sphere.qc (s : Sphere) (ray : Ray) : ℝ :=
  ((s.localRay ray).origin - s.center).dot ((s.localRay ray).origin - s.center)
    - s.radius * s.radius

/-- `discriminant = b·b − 4·a·c` of `Sphere::intersect`. -/
def Sphere.disc (s : Sphere) (ray : Ray) : ℝ :=
  s.qb ray * s.qb ray - 4 * s.qa ray * s.qc ray

/-- `t1 = (−b − √discriminant) / (2a)`, the smaller root. -/
def Sphere.root1 (s : Sphere) (ray : Ray) : ℝ :=
  (-s.qb ray - Real.sqrt (s.disc ray)) / (2 * s.qa ray)

/-- `t2 = (−b + √discriminant) / (2a)`, the larger root. -/
def Sphere.root2 (s : Sphere) (ray : Ray) : ℝ :=
  (-s.qb ray + Real.sqrt (s.disc ray)) / (2 * s.qa ray)

/-- The hit record `Sphere::intersect` builds at parameter `t`: point on the
local ray, normal from the center, point mapped back to world space unless the
placement is the identity. -/
def Sphere.mkHit (s : Sphere) (ray : Ray) (t : ℝ) : HitInfo :=
  let hit_point := (s.localRay ray).at t
  let normal := (hit_point - s.center).normalize
  let world_hit_point :=
    if s.identityPlacement then hit_point else s.transform.apply_to_point hit_point
  ⟨t, world_hit_point, normal, s.material⟩

/-- `Sphere::intersect` (src/shapes/sphere.rs): no hit on a negative
discriminant, otherwise the first of `t1`, `t2` exceeding `1e-4`. -/
def Sphere.intersect (s : Sphere) (ray : Ray) : Option HitInfo :=
  if s.disc ray < 0 then none
  else if s.root1 ray > 1e-4 then some (s.mkHit ray (s.root1 ray))
  else if s.root2 ray > 1e-4 then some (s.mkHit ray (s.root2 ray))
  else none

/-- `Plane` (src/shapes/plane.rs): point, stored normal, material, placement. -/
structure Plane where
  point : Vec3
  normal : Vec3
  material : Material
  transform : Transform

/-- `denom = direction · normal` of `Plane::intersect`. -/
def Plane.denom (p : Plane) (ray : Ray) : ℝ := ray.direction.dot p.normal

/-- `t = (point − origin) · normal / denom` of `Plane::intersect`. -/
def Plane.tval (p : Plane) (ray : Ray) : ℝ :=
  (p.point - ray.origin).dot p.normal / p.denom ray

/-- `Plane::intersect` (src/shapes/plane.rs): no hit when the denominator is
near zero (parallel ray) or `t < 1e-4`; otherwise a hit with the stored
normal. -/
def Plane.intersect (p : Plane) (ray : Ray) : Option HitInfo :=
  if |p.denom ray| < 1e-6 then none
  else if p.tval ray < 1e-4 then none
  else some ⟨p.tval ray, ray.at (p.tval ray), p.normal, p.material⟩

/-- `Cube` (src/shapes/cube.rs): axis-aligned box from min/max corners. -/
structure Cube where
  min : Vec3
  max : Vec3
  material : Material
  transform : Transform

/-- State threaded through the slab loop of `Cube::intersect`: `t_min` starts
at `f64::NEG_INFINITY` (here `⊥ : EReal`), `t_max` at `f64::INFINITY` (`⊤`),
and the running entry-face normal starts at `Vec3::zero()`. -/
structure SlabState where
  t_min : EReal
  t_max : EReal
  normal : Vec3

/-- One iteration of the slab loop in `Cube::intersect` for a single axis:
`aO`/`aD` are the ray's origin and direction components on the axis,
`aMin`/`aMax` the box bounds, `nMin`/`nMax` the outward normals of the min and
max faces.  A parallel ray outside the slab exits with no hit; otherwise
`t_min` (with the face normal) and `t_max` are updated and the loop exits with
no hit as soon as `t_min > t_max`. -/
def slabStep (aO aD aMin aMax : ℝ) (nMin nMax : Vec3) (st : SlabState) : Option SlabState :=
  if |aD| < 1e-6 then
    if aO < aMin ∨ aO > aMax then none else some st
  else
    let t1 := (aMin - aO) / aD
    let t2 := (aMax - aO) / aD
    let t_near := if t1 < t2 then t1 else t2
    let t_far := if t1 < t2 then t2 else t1
    let st1 := if (t_near : EReal) > st.t_min then
        SlabState.mk (t_near : EReal) st.t_max (if t1 < t2 then nMin else nMax)
      else st
    let st2 := SlabState.mk st1.t_min
        (if (t_far : EReal) < st1.t_max then (t_far : EReal) else st1.t_max) st1.normal
    if st2.t_min > st2.t_max then none else some st2

/-- The slab loop of `Cube::intersect`, axes in order x, y, z. -/
def Cube.slab (c : Cube) (ray : Ray) : Option SlabState :=
  (slabStep ray.origin.x ray.direction.x c.min.x c.max.x ⟨-1, 0, 0⟩ ⟨1, 0, 0⟩
      ⟨⊥, ⊤, Vec3.zero⟩).bind fun stx =>
    (slabStep ray.origin.y ray.direction.y c.min.y c.max.y ⟨0, -1, 0⟩ ⟨0, 1, 0⟩ stx).bind
      fun sty =>
        slabStep ray.origin.z ray.direction.z c.min.z c.max.z ⟨0, 0, -1⟩ ⟨0, 0, 1⟩ sty

/-- The final parameter/normal selection of `Cube::intersect`, kept in `EReal`
so the infinite sentinels remain faithfully represented: `t_min` if it exceeds
`1e-4`, else `t_max` if it exceeds `1e-4`, else no hit; the normal is the one
recorded by the slab loop in either case. -/
def Cube.intersectT (c : Cube) (ray : Ray) : Option (EReal × Vec3) :=
  match c.slab ray with
  | none => none
  | some st =>
    if st.t_min > ((1e-4 : ℝ) : EReal) then some (st.t_min, st.normal)
    else if st.t_max > ((1e-4 : ℝ) : EReal) then some (st.t_max, st.normal)
    else none

/-- `Cube::intersect` (src/shapes/cube.rs).  `EReal.toReal` sends the (only
degenerate, all-axes-parallel) infinite parameter to `0`; Rust builds the hit
from `f64` infinities there. -/
def Cube.intersect (c : Cube) (ray : Ray) : Option HitInfo :=
  (c.intersectT ray).map fun tn => ⟨tn.1.toReal, ray.at tn.1.toReal, tn.2, c.material⟩

/-- `n` is the outward normal of a box face and the ray point at parameter
`tr` lies on that face: the meaning of "entry-face normal" for C4. -/
def Cube.onEntryFace (c : Cube) (ray : Ray) (tr : ℝ) (n : Vec3) : Prop :=
  (n = ⟨-1, 0, 0⟩ ∧ (ray.at tr).x = c.min.x) ∨
  (n = ⟨1, 0, 0⟩ ∧ (ray.at tr).x = c.max.x) ∨
  (n = ⟨0, -1, 0⟩ ∧ (ray.at tr).y = c.min.y) ∨
  (n = ⟨0, 1, 0⟩ ∧ (ray.at tr).y = c.max.y) ∨
  (n = ⟨0, 0, -1⟩ ∧ (ray.at tr).z = c.min.z) ∨
  (n = ⟨0, 0, 1⟩ ∧ (ray.at tr).z = c.max.z)

/-- `Cylinder` (src/shapes/cylinder.rs): finite cylinder along the Y axis. -/
structure Cylinder where
  center : Vec3
  radius : ℝ
  height : ℝ
  material : Material
  transform : Transform

/-- Lateral quadratic coefficient `a = dx² + dz²` of `Cylinder::intersect`. -/
def Cylinder.qa (cy : Cylinder) (ray : Ray) : ℝ :=
  ray.direction.x * ray.direction.x + ray.direction.z * ray.direction.z

/-- Lateral quadratic coefficient `b = 2(oc.x·dx + oc.z·dz)`. -/
def Cylinder.qb (cy : Cylinder) (ray : Ray) : ℝ :=
  2 * ((ray.origin.x - cy.center.x) * ray.direction.x
    + (ray.origin.z - cy.center.z) * ray.direction.z)

/-- Lateral quadratic coefficient `c = oc.x² + oc.z² − r²`. -/
def Cylinder.qc (cy : Cylinder) (ray : Ray) : ℝ :=
  (ray.origin.x - cy.center.x) * (ray.origin.x - cy.center.x)
    + (ray.origin.z - cy.center.z) * (ray.origin.z - cy.center.z)
    - cy.radius * cy.radius

/-- `discriminant = b·b − 4·a·c` of `Cylinder::intersect`. -/
def Cylinder.disc (cy : Cylinder) (ray : Ray) : ℝ :=
  cy.qb ray * cy.qb ray - 4 * cy.qa ray * cy.qc ray

/-- Wall root `t1 = (−b − √discriminant) / (2a)`. -/
def Cylinder.root1 (cy : Cylinder) (ray : Ray) : ℝ :=
  (-cy.qb ray - Real.sqrt (cy.disc ray)) / (2 * cy.qa ray)

/-- Wall root `t2 = (−b + √discriminant) / (2a)`. -/
def Cylinder.root2 (cy : Cylinder) (ray : Ray) : ℝ :=
  (-cy.qb ray + Real.sqrt (cy.disc ray)) / (2 * cy.qa ray)

/-- `cap_y_top = center.y + height/2`. -/
def Cylinder.capTop (cy : Cylinder) : ℝ := cy.center.y + cy.height / 2

/-- `cap_y_bottom = center.y − height/2`. -/
def Cylinder.capBottom (cy : Cylinder) : ℝ := cy.center.y - cy.height / 2

/-- Cap plane parameter `t = (cap_y − origin.y) / direction.y`. -/
def Cylinder.capT (cy : Cylinder) (ray : Ray) (cap_y : ℝ) : ℝ :=
  (cap_y - ray.origin.y) / ray.direction.y

/-- Wall normal at parameter `t`: horizontal radial direction, normalized. -/
def Cylinder.wallNormal (cy : Cylinder) (ray : Ray) (t : ℝ) : Vec3 :=
  Vec3.normalize ⟨((ray.at t).x - cy.center.x) / cy.radius, 0,
    ((ray.at t).z - cy.center.z) / cy.radius⟩

/-- Cap normal: `unit_y` for the top-cap value, `−unit_y` otherwise, compared
by value exactly as `cap_y == cap_y_top` in the source. -/
def Cylinder.capNormal (cy : Cylinder) (cap_y : ℝ) : Vec3 :=
  if cap_y = cy.capTop then Vec3.unit_y else -Vec3.unit_y

/-- A wall candidate at `t` is valid: `t` is a real root of the lateral
quadratic (`0 ≤ discriminant`), exceeds `1e-4`, and the hit point's vertical
coordinate lies within the cylinder's height interval. -/
def Cylinder.wallValid (cy : Cylinder) (ray : Ray) (t : ℝ) : Prop :=
  0 ≤ cy.disc ray ∧ t > 1e-4 ∧
    cy.center.y - cy.height / 2 ≤ (ray.at t).y ∧ (ray.at t).y ≤ cy.center.y + cy.height / 2

instance (cy : Cylinder) (ray : Ray) (t : ℝ) : Decidable (cy.wallValid ray t) := by
  unfold Cylinder.wallValid
  infer_instance

/-- A cap candidate at plane `cap_y` is valid: the ray is not horizontal
(`|direction.y| > 1e-6`), the plane parameter exceeds `1e-4`, and the hit
point's horizontal squared distance from the axis is at most `radius²`. -/
def Cylinder.capValid (cy : Cylinder) (ray : Ray) (cap_y : ℝ) : Prop :=
  |ray.direction.y| > 1e-6 ∧ cy.capT ray cap_y > 1e-4 ∧
    ((ray.at (cy.capT ray cap_y)).x - cy.center.x)
        * ((ray.at (cy.capT ray cap_y)).x - cy.center.x)
      + ((ray.at (cy.capT ray cap_y)).z - cy.center.z)
        * ((ray.at (cy.capT ray cap_y)).z - cy.center.z)
      ≤ cy.radius * cy.radius

instance (cy : Cylinder) (ray : Ray) (cap_y : ℝ) : Decidable (cy.capValid ray cap_y) := by
  unfold Cylinder.capValid
  infer_instance

/-- The `closest_t`/`closest_normal` update of `Cylinder::intersect`: when the
candidate is valid and the accumulator is empty or the candidate is strictly
closer, replace the accumulator. -/
def considerHit (acc : Option (ℝ × Vec3)) (t : ℝ) (n : Vec3) (valid : Prop)
    [Decidable valid] : Option (ℝ × Vec3) :=
  if valid then
    match acc with
    | none => some (t, n)
    | some best => if t < best.1 then some (t, n) else some best
  else acc

/-- The candidate scan of `Cylinder::intersect`: wall roots `t1`, `t2` in
order, then the top and bottom caps. -/
def Cylinder.scan (cy : Cylinder) (ray : Ray) : Option (ℝ × Vec3) :=
  considerHit (considerHit (considerHit (considerHit none
    (cy.root1 ray) (cy.wallNormal ray (cy.root1 ray)) (cy.wallValid ray (cy.root1 ray)))
    (cy.root2 ray) (cy.wallNormal ray (cy.root2 ray)) (cy.wallValid ray (cy.root2 ray)))
    (cy.capT ray cy.capTop) (cy.capNormal cy.capTop) (cy.capValid ray cy.capTop))
    (cy.capT ray cy.capBottom) (cy.capNormal cy.capBottom) (cy.capValid ray cy.capBottom)

/-- `Cylinder::intersect` (src/shapes/cylinder.rs): early exit on a negative
lateral discriminant, otherwise the closest accepted wall or cap candidate. -/
def Cylinder.intersect (cy : Cylinder) (ray : Ray) : Option HitInfo :=
  if cy.disc ray < 0 then none
  else
    match cy.scan ray with
    | some tn => some ⟨tn.1, ray.at tn.1, tn.2, cy.material⟩
    | none => none

/-- The candidate set of C5 as a list, in the scan's order: valid wall roots
then valid cap hits, each paired with its normal. -/
def Cylinder.candidates (cy : Cylinder) (ray : Ray) : List (ℝ × Vec3) :=
  ((((if cy.wallValid ray (cy.root1 ray) then
      [(cy.root1 ray, cy.wallNormal ray (cy.root1 ray))] else []) ++
    (if cy.wallValid ray (cy.root2 ray) then
      [(cy.root2 ray, cy.wallNormal ray (cy.root2 ray))] else [])) ++
    (if cy.capValid ray cy.capTop then
      [(cy.capT ray cy.capTop, cy.capNormal cy.capTop)] else [])) ++
    (if cy.capValid ray cy.capBottom then
      [(cy.capT ray cy.capBottom, cy.capNormal cy.capBottom)] else []))

/-- `acc` is the running minimum over the candidate list `l`: empty iff `l`
is, and any held candidate is a member of `l` of minimal parameter. -/
def summarizes (acc : Option (ℝ × Vec3)) (l : List (ℝ × Vec3)) : Prop :=
  (acc = none ↔ l = []) ∧
    ∀ tn', acc = some tn' → tn' ∈ l ∧ ∀ tn ∈ l, tn'.1 ≤ tn.1

/-- `Light` (src/scene.rs): point light with position, intensity, color. -/
structure Light where
  position : Vec3
  intensity : ℝ
  color : Vec3

/-- `Scene` (src/scene.rs).  The `Box<dyn Intersectable>` trait objects are
modelled by their single interface method `intersect : Ray → Option HitInfo`. -/
structure Scene where
  objects : List (Ray → Option HitInfo)
  lights : List Light
  background_color : Vec3

/-- The loop body of `Scene::intersect`: keep the accumulated closest hit
unless the object reports a hit strictly closer than it (`hit.t < closest_t`,
with the empty accumulator standing for `closest_t = f64::INFINITY`). -/
def closerHit (ray : Ray) (acc : Option HitInfo) (obj : Ray → Option HitInfo) :
    Option HitInfo :=
  match obj ray with
  | some hit =>
    match acc with
    | some best => if hit.t < best.t then some hit else some best
    | none => some hit
  | none => acc

/-- `Scene::intersect` (src/scene.rs): linear scan over all objects keeping
the strictly closest hit. -/
def Scene.intersect (s : Scene) (ray : Ray) : Option HitInfo :=
  s.objects.foldl (closerHit ray) none

end

/-- `PpmWriter` (src/ppm.rs): width, height, and the flat byte vector filled
three entries per written pixel. -/
structure PpmWriter where
  width : ℕ
  height : ℕ
  pixels : List ℕ

/-- `PpmWriter::new`. -/
def PpmWriter.new (width height : ℕ) : PpmWriter := ⟨width, height, []⟩

/-- `PpmWriter::write_pixel`: push the three channels. -/
def PpmWriter.write_pixel (wr : PpmWriter) (r g b : ℕ) : PpmWriter :=
  ⟨wr.width, wr.height, wr.pixels ++ [r, g, b]⟩

/-- Rust `slice::chunks(3)`: groups of three in order, with a final partial
group when the length is not a multiple of three. -/
def chunks3 : List ℕ → List (List ℕ)
  | [] => []
  | r :: g :: b :: rest => [r, g, b] :: chunks3 rest
  | rest => [rest]

/-- `PpmWriter::to_string` (src/ppm.rs): the `P3` header lines then one
`"R G B\n"` line per complete 3-chunk (incomplete chunks are skipped). -/
def PpmWriter.to_string (wr : PpmWriter) : String :=
  "P3\n" ++ (Nat.repr wr.width ++ " " ++ Nat.repr wr.height ++ "\n") ++ "255\n" ++
    String.join ((chunks3 wr.pixels).map fun chunk =>
      match chunk with
      | [r, g, b] => Nat.repr r ++ " " ++ Nat.repr g ++ " " ++ Nat.repr b ++ "\n"
      | _ => "")

/-- A sequence of `write_pixel` calls, one per RGB triple. -/
def writePixels (wr : PpmWriter) (ps : List (ℕ × ℕ × ℕ)) : PpmWriter :=
  ps.foldl (fun w p => w.write_pixel p.1 p.2.1 p.2.2) wr

noncomputable section

instance : Zero Vec3 := ⟨Vec3.zero⟩

/-- `Camera` (src/camera.rs): origin and the three derived viewport vectors. -/
structure Camera where
  origin : Vec3
  lower_left_corner : Vec3
  horizontal : Vec3
  vertical : Vec3

/-- `Camera::get_ray`. -/
def Camera.get_ray (c : Camera) (u v : ℝ) : Ray :=
  ⟨c.origin, c.lower_left_corner + u * c.horizontal + v * c.vertical - c.origin⟩

/-- `Renderer` (src/render.rs). -/
structure Renderer where
  max_depth : ℕ
  epsilon : ℝ

/-- `Renderer::new()`: `max_depth = 10`, `epsilon = 1e-4`. -/
def Renderer.new : Renderer := ⟨10, 1e-4⟩

/-- The shadow test of `Renderer::trace_ray`: the scene reports a hit along
the shadow ray strictly closer than the light distance minus the epsilon. -/
def inShadow (scene : Scene) (shadow_ray : Ray) (light_distance eps : ℝ) : Prop :=
  match scene.intersect shadow_ray with
  | some shadow_hit => shadow_hit.t < light_distance - eps
  | none => False

instance (scene : Scene) (r : Ray) (d e : ℝ) : Decidable (inShadow scene r d e) := by
  unfold inShadow
  rcases scene.intersect r with _ | sh
  · exact isFalse fun hf => hf
  · exact inferInstanceAs (Decidable (sh.t < d - e))

/-- The per-light loop body of `Renderer::trace_ray`: skip back-facing lights
(`light_intensity ≤ 0`), skip shadowed lights, otherwise accumulate
`albedo ⊙ lightColor · intensity · diffuse`. -/
def Renderer.shadeStep (rd : Renderer) (scene : Scene) (hit : HitInfo)
    (color : Vec3) (light : Light) : Vec3 :=
  let light_dir := (light.position - hit.point).normalize
  let light_distance := (light.position - hit.point).length
  let light_intensity := max (hit.normal.dot light_dir) 0
  if light_intensity > 0 then
    if inShadow scene ⟨hit.point + hit.normal * rd.epsilon, light_dir⟩
        light_distance rd.epsilon then color
    else color + (⟨hit.material.albedo.x * light.color.x,
        hit.material.albedo.y * light.color.y,
        hit.material.albedo.z * light.color.z⟩ : Vec3) * light.intensity * light_intensity
  else color

/-- The hit branch of `Renderer::trace_ray`: fold the per-light accumulation
from zero, then add the ambient `albedo × 0.1` term once. -/
def Renderer.shade (rd : Renderer) (scene : Scene) (hit : HitInfo) : Vec3 :=
  scene.lights.foldl (rd.shadeStep scene hit) Vec3.zero +
    (⟨hit.material.albedo.x * 0.1, hit.material.albedo.y * 0.1,
      hit.material.albedo.z * 0.1⟩ : Vec3)

/-- `Renderer::trace_ray` (src/render.rs): black past the depth guard,
background color on a miss, Lambertian shading with hard shadows on a hit. -/
def Renderer.trace_ray (rd : Renderer) (ray : Ray) (scene : Scene) (depth : ℕ) : Vec3 :=
  if depth ≥ rd.max_depth then Vec3.zero
  else
    match scene.intersect ray with
    | some hit => rd.shade scene hit
    | none => scene.background_color

/-- Spec side of C1, written from the claim's words: the contribution of one
light is `albedo ⊙ lightColor × lightIntensity × diffuseFactor` when
`diffuseFactor > 0` and the shadow ray is unobstructed, and exactly zero
otherwise. -/
def lightContribution (rd : Renderer) (scene : Scene) (hit : HitInfo) (light : Light) : Vec3 :=
  let light_dir := (light.position - hit.point).normalize
  let light_distance := (light.position - hit.point).length
  let diffuseFactor := max (hit.normal.dot light_dir) 0
  if diffuseFactor > 0 ∧ ¬ inShadow scene ⟨hit.point + hit.normal * rd.epsilon, light_dir⟩
      light_distance rd.epsilon then
    (⟨hit.material.albedo.x * light.color.x, hit.material.albedo.y * light.color.y,
      hit.material.albedo.z * light.color.z⟩ : Vec3) * light.intensity * diffuseFactor
  else Vec3.zero

/-- The Rust saturating `as u8` cast from `f64`, on the reals: negative values
clamp to 0, values above 255 clamp to 255, the rest truncate toward zero. -/
def f64_as_u8 (x : ℝ) : ℕ :=
  if x < 0 then 0 else if x > 255 then 255 else Int.toNat ⌊x⌋

/-- One channel of the pixel conversion in `Renderer::render`:
`(255.0 * c.min(1.0).max(0.0)) as u8`. -/
def channelByte (c : ℝ) : ℕ := f64_as_u8 (255 * max (min c 1) 0)

/-- The claim-side conversion of C8: clamp to `[0,1]` first, then
round-toward-zero of `255 ×` the clamped channel. -/
def clampByte (c : ℝ) : ℕ := Int.toNat ⌊255 * min 1 (max 0 c)⌋

/-- `Renderer::render` (src/render.rs): rows top to bottom, columns left to
right, `u = x/width`, `v = (height−1−y)/height`, one traced color per pixel,
three converted channel bytes pushed per pixel. -/
def Renderer.render (rd : Renderer) (scene : Scene) (camera : Camera)
    (width height : ℕ) : PpmWriter :=
  ⟨width, height,
    (List.range height).flatMap fun y =>
      (List.range width).flatMap fun x =>
        let color := rd.trace_ray
          (camera.get_ray ((x : ℝ) / (width : ℝ)) (((height - 1 - y : ℕ) : ℝ) / (height : ℝ)))
          scene 0
        [channelByte color.x, channelByte color.y, channelByte color.z]⟩

end

@[simp] theorem Vec3.add_def (a b : Vec3) : a + b = ⟨a.x + b.x, a.y + b.y, a.z + b.z⟩ := rfl

@[simp] theorem Vec3.sub_def (a b : Vec3) : a - b = ⟨a.x - b.x, a.y - b.y, a.z - b.z⟩ := rfl

@[simp] theorem Vec3.neg_def (a : Vec3) : -a = ⟨-a.x, -a.y, -a.z⟩ := rfl

@[simp] theorem Vec3.mul_def (v : Vec3) (s : ℝ) : v * s = ⟨v.x * s, v.y * s, v.z * s⟩ := rfl

@[simp] theorem Vec3.smul_def (s : ℝ) (v : Vec3) : s * v = ⟨v.x * s, v.y * s, v.z * s⟩ := rfl

@[simp] theorem Vec3.div_def (v : Vec3) (s : ℝ) : v / s = ⟨v.x / s, v.y / s, v.z / s⟩ := rfl

theorem Vec3.dot_self_nonneg (v : Vec3) : 0 ≤ v.dot v :=
  add_nonneg (add_nonneg (mul_self_nonneg _) (mul_self_nonneg _)) (mul_self_nonneg _)

/-- C7: `normalize` on a vector of exactly zero length returns the input
unchanged, and on a vector of nonzero length returns a vector of length 1
(over the reals, "within floating tolerance" is exact). -/
theorem C7_normalize_zero_or_unit (v : Vec3) :
    (v.length = 0 → v.normalize = v) ∧ (v.length ≠ 0 → v.normalize.length = 1) := by
  constructor
  · intro h0
    unfold Vec3.normalize
    simp [h0]
  · intro hne
    have hsq : 0 ≤ v.x * v.x + v.y * v.y + v.z * v.z :=
      add_nonneg (add_nonneg (mul_self_nonneg _) (mul_self_nonneg _)) (mul_self_nonneg _)
    have hlen0 : 0 ≤ v.length := Real.sqrt_nonneg _
    have hpos : v.length > 0 := lt_of_le_of_ne hlen0 (Ne.symm hne)
    have hlsq : v.length * v.length = v.x * v.x + v.y * v.y + v.z * v.z :=
      Real.mul_self_sqrt hsq
    unfold Vec3.normalize
    rw [if_pos hpos]
    show Real.sqrt _ = 1
    have hdiv : (v.x / v.length) * (v.x / v.length) + (v.y / v.length) * (v.y / v.length)
        + (v.z / v.length) * (v.z / v.length)
        = (v.x * v.x + v.y * v.y + v.z * v.z) / (v.length * v.length) := by
      field_simp
    have hlsqne : v.x * v.x + v.y * v.y + v.z * v.z ≠ 0 := by
      intro hz
      exact hne (by simp [Vec3.length, hz])
    have hone : (v.x * v.x + v.y * v.y + v.z * v.z) / (v.length * v.length) = 1 := by
      rw [hlsq]
      exact div_self hlsqne
    show Real.sqrt ((v.x / v.length) * (v.x / v.length)
        + (v.y / v.length) * (v.y / v.length)
        + (v.z / v.length) * (v.z / v.length)) = 1
    rw [hdiv, hone, Real.sqrt_one]

/-- Witness for C7 at the zero vector and at `(3,4,0)` (length 5). -/
theorem C7_normalize_zero_or_unit_witness :
    Vec3.normalize ⟨0, 0, 0⟩ = ⟨0, 0, 0⟩ ∧ (Vec3.normalize ⟨3, 4, 0⟩).length = 1 := by
  have h5 : (Vec3.mk 3 4 0).length = 5 := by
    show Real.sqrt _ = 5
    rw [show (3 * 3 + 4 * 4 + 0 * 0 : ℝ) = 5 ^ 2 by norm_num,
      Real.sqrt_sq (by norm_num : (0:ℝ) ≤ 5)]
  exact ⟨(C7_normalize_zero_or_unit ⟨0, 0, 0⟩).1 (by simp [Vec3.length]),
    (C7_normalize_zero_or_unit ⟨3, 4, 0⟩).2 (by rw [h5]; norm_num)⟩

/-- C2: sphere intersection returns no hit on a negative discriminant;
otherwise it selects the smaller root `t1` when `t1 > 1e-4`, else the larger
root `t2` when `t2 > 1e-4`, and returns no hit when neither root exceeds
`1e-4`. -/
theorem C2_sphere_root_selection (s : Sphere) (ray : Ray) :
    (s.disc ray < 0 → s.intersect ray = none) ∧
    (0 ≤ s.disc ray →
      s.root1 ray ≤ s.root2 ray ∧
      (s.root1 ray > 1e-4 → ∃ h, s.intersect ray = some h ∧ h.t = s.root1 ray) ∧
      (¬ s.root1 ray > 1e-4 → s.root2 ray > 1e-4 →
        ∃ h, s.intersect ray = some h ∧ h.t = s.root2 ray) ∧
      (¬ s.root1 ray > 1e-4 → ¬ s.root2 ray > 1e-4 → s.intersect ray = none)) := by
  constructor
  · intro hneg
    unfold Sphere.intersect
    rw [if_pos hneg]
  · intro hd
    have hnneg : ¬ s.disc ray < 0 := not_lt.mpr hd
    refine ⟨?_, ?_, ?_, ?_⟩
    · have ha : 0 ≤ s.qa ray := Vec3.dot_self_nonneg _
      rcases ha.eq_or_lt with hz | hpos
      · unfold Sphere.root1 Sphere.root2
        rw [← hz]
        norm_num
      · unfold Sphere.root1 Sphere.root2
        have h2a : 0 < 2 * s.qa ray := by linarith
        rw [div_le_div_iff_of_pos_right h2a]
        have := Real.sqrt_nonneg (s.disc ray)
        linarith
    · intro h1
      refine ⟨s.mkHit ray (s.root1 ray), ?_, rfl⟩
      unfold Sphere.intersect
      rw [if_neg hnneg, if_pos h1]
    · intro h1 h2
      refine ⟨s.mkHit ray (s.root2 ray), ?_, rfl⟩
      unfold Sphere.intersect
      rw [if_neg hnneg, if_neg h1, if_pos h2]
    · intro h1 h2
      unfold Sphere.intersect
      rw [if_neg hnneg, if_neg h1, if_neg h2]

/-- Witness for C2: the unit sphere at `(0,0,-3)` hit from the origin along
`-z` has discriminant 4 and smaller root `t1 = 2`, which is returned. -/
theorem C2_sphere_root_selection_witness :
    ∃ h, Sphere.intersect ⟨⟨0, 0, -3⟩, 1, ⟨⟨1, 0, 0⟩, 0, 1, 0⟩, Transform.new⟩
        ⟨⟨0, 0, 0⟩, ⟨0, 0, -1⟩⟩ = some h ∧ h.t = 2 := by
  have hid : (Sphere.mk ⟨0, 0, -3⟩ 1 ⟨⟨1, 0, 0⟩, 0, 1, 0⟩ Transform.new).identityPlacement :=
    ⟨rfl, rfl⟩
  have hlocal : (Sphere.mk ⟨0, 0, -3⟩ 1 ⟨⟨1, 0, 0⟩, 0, 1, 0⟩ Transform.new).localRay
      ⟨⟨0, 0, 0⟩, ⟨0, 0, -1⟩⟩ = ⟨⟨0, 0, 0⟩, ⟨0, 0, -1⟩⟩ := if_pos hid
  have hqa : (Sphere.mk ⟨0, 0, -3⟩ 1 ⟨⟨1, 0, 0⟩, 0, 1, 0⟩ Transform.new).qa
      ⟨⟨0, 0, 0⟩, ⟨0, 0, -1⟩⟩ = 1 := by
    unfold Sphere.qa
    rw [hlocal]
    simp [Vec3.dot]
  have hqb : (Sphere.mk ⟨0, 0, -3⟩ 1 ⟨⟨1, 0, 0⟩, 0, 1, 0⟩ Transform.new).qb
      ⟨⟨0, 0, 0⟩, ⟨0, 0, -1⟩⟩ = -6 := by
    unfold Sphere.qb
    rw [hlocal]
    simp [Vec3.dot]
    norm_num
  have hqc : (Sphere.mk ⟨0, 0, -3⟩ 1 ⟨⟨1, 0, 0⟩, 0, 1, 0⟩ Transform.new).qc
      ⟨⟨0, 0, 0⟩, ⟨0, 0, -1⟩⟩ = 8 := by
    unfold Sphere.qc
    rw [hlocal]
    simp [Vec3.dot]
    norm_num
  have hdisc : (Sphere.mk ⟨0, 0, -3⟩ 1 ⟨⟨1, 0, 0⟩, 0, 1, 0⟩ Transform.new).disc
      ⟨⟨0, 0, 0⟩, ⟨0, 0, -1⟩⟩ = 4 := by
    unfold Sphere.disc
    rw [hqa, hqb, hqc]
    norm_num
  have hsqrt : Real.sqrt 4 = 2 := by
    rw [show (4 : ℝ) = 2 ^ 2 by norm_num, Real.sqrt_sq (by norm_num : (0:ℝ) ≤ 2)]
  have hroot1 : (Sphere.mk ⟨0, 0, -3⟩ 1 ⟨⟨1, 0, 0⟩, 0, 1, 0⟩ Transform.new).root1
      ⟨⟨0, 0, 0⟩, ⟨0, 0, -1⟩⟩ = 2 := by
    unfold Sphere.root1
    rw [hqa, hqb, hdisc, hsqrt]
    norm_num
  obtain ⟨h, hh, ht⟩ :=
    ((C2_sphere_root_selection ⟨⟨0, 0, -3⟩, 1, ⟨⟨1, 0, 0⟩, 0, 1, 0⟩, Transform.new⟩
        ⟨⟨0, 0, 0⟩, ⟨0, 0, -1⟩⟩).2 (by rw [hdisc]; norm_num)).2.1 (by rw [hroot1]; norm_num)
  exact ⟨h, hh, by rw [ht, hroot1]⟩

/-- Counterexample to C6 as stated: a solution at exactly `t = 1e-4` is *not*
rejected.  For the plane through `(0, 1e-4, 0)` with normal `(0,1,0)` and the
ray from the origin along `(0,1,0)`, the solution is `t = 1e-4` (at, not
above, the epsilon) and the code returns a hit. -/
theorem C6_plane_epsilon_counterexample :
    Plane.tval ⟨⟨0, 1e-4, 0⟩, ⟨0, 1, 0⟩, ⟨⟨1, 1, 1⟩, 0, 1, 0⟩, Transform.new⟩
        ⟨⟨0, 0, 0⟩, ⟨0, 1, 0⟩⟩ = 1e-4 ∧
    ∃ h, Plane.intersect ⟨⟨0, 1e-4, 0⟩, ⟨0, 1, 0⟩, ⟨⟨1, 1, 1⟩, 0, 1, 0⟩, Transform.new⟩
        ⟨⟨0, 0, 0⟩, ⟨0, 1, 0⟩⟩ = some h ∧ h.t = 1e-4 := by
  have hden : Plane.denom ⟨⟨0, 1e-4, 0⟩, ⟨0, 1, 0⟩, ⟨⟨1, 1, 1⟩, 0, 1, 0⟩, Transform.new⟩
      ⟨⟨0, 0, 0⟩, ⟨0, 1, 0⟩⟩ = 1 := by
    unfold Plane.denom
    simp [Vec3.dot]
  have ht : Plane.tval ⟨⟨0, 1e-4, 0⟩, ⟨0, 1, 0⟩, ⟨⟨1, 1, 1⟩, 0, 1, 0⟩, Transform.new⟩
      ⟨⟨0, 0, 0⟩, ⟨0, 1, 0⟩⟩ = 1e-4 := by
    unfold Plane.tval
    rw [hden]
    simp [Vec3.dot]
  refine ⟨ht, ⟨1e-4, Ray.at ⟨⟨0, 0, 0⟩, ⟨0, 1, 0⟩⟩ 1e-4, ⟨0, 1, 0⟩, ⟨⟨1, 1, 1⟩, 0, 1, 0⟩⟩, ?_, rfl⟩
  unfold Plane.intersect
  rw [hden, ht]
  norm_num

/-- C6 amended: the plane intersection returns no hit when `|direction·normal|
< 1e-6`, and otherwise rejects solutions `t` strictly below `1e-4`, returning a
hit for every `t ≥ 1e-4` — in particular a solution at exactly the epsilon is
returned, not rejected. -/
theorem C6_plane_parallel_and_epsilon (p : Plane) (ray : Ray) :
    (|p.denom ray| < 1e-6 → p.intersect ray = none) ∧
    (¬ |p.denom ray| < 1e-6 →
      (p.tval ray < 1e-4 → p.intersect ray = none) ∧
      (1e-4 ≤ p.tval ray →
        p.intersect ray = some ⟨p.tval ray, ray.at (p.tval ray), p.normal, p.material⟩)) := by
  refine ⟨fun hpar => ?_, fun hnpar => ⟨fun hlt => ?_, fun hge => ?_⟩⟩
  · unfold Plane.intersect
    rw [if_pos hpar]
  · unfold Plane.intersect
    rw [if_neg hnpar, if_pos hlt]
  · unfold Plane.intersect
    rw [if_neg hnpar, if_neg (not_lt.mpr hge)]

/-- Witness for C6 amended: a ray parallel to a plane misses it, and the
horizontal plane `y = -1` hit straight down from the origin is reported at
`t = 1`. -/
theorem C6_plane_parallel_and_epsilon_witness :
    Plane.intersect ⟨⟨0, -1, 0⟩, ⟨0, 1, 0⟩, ⟨⟨1, 1, 1⟩, 0, 1, 0⟩, Transform.new⟩
        ⟨⟨0, 0, 0⟩, ⟨1, 0, 0⟩⟩ = none ∧
    ∃ h, Plane.intersect ⟨⟨0, -1, 0⟩, ⟨0, 1, 0⟩, ⟨⟨1, 1, 1⟩, 0, 1, 0⟩, Transform.new⟩
        ⟨⟨0, 0, 0⟩, ⟨0, -1, 0⟩⟩ = some h ∧ h.t = 1 := by
  have hden1 : Plane.denom ⟨⟨0, -1, 0⟩, ⟨0, 1, 0⟩, ⟨⟨1, 1, 1⟩, 0, 1, 0⟩, Transform.new⟩
      ⟨⟨0, 0, 0⟩, ⟨1, 0, 0⟩⟩ = 0 := by
    unfold Plane.denom
    simp [Vec3.dot]
  have hden2 : Plane.denom ⟨⟨0, -1, 0⟩, ⟨0, 1, 0⟩, ⟨⟨1, 1, 1⟩, 0, 1, 0⟩, Transform.new⟩
      ⟨⟨0, 0, 0⟩, ⟨0, -1, 0⟩⟩ = -1 := by
    unfold Plane.denom
    simp [Vec3.dot]
  have ht2 : Plane.tval ⟨⟨0, -1, 0⟩, ⟨0, 1, 0⟩, ⟨⟨1, 1, 1⟩, 0, 1, 0⟩, Transform.new⟩
      ⟨⟨0, 0, 0⟩, ⟨0, -1, 0⟩⟩ = 1 := by
    unfold Plane.tval
    rw [hden2]
    simp [Vec3.dot]
  constructor
  · exact (C6_plane_parallel_and_epsilon _ _).1 (by rw [hden1]; norm_num)
  · obtain ⟨-, hsome⟩ := (C6_plane_parallel_and_epsilon
      ⟨⟨0, -1, 0⟩, ⟨0, 1, 0⟩, ⟨⟨1, 1, 1⟩, 0, 1, 0⟩, Transform.new⟩
      ⟨⟨0, 0, 0⟩, ⟨0, -1, 0⟩⟩).2 (by rw [hden2]; norm_num)
    exact ⟨_, hsome (by rw [ht2]; norm_num), by rw [ht2]⟩

/-- A successful slab iteration either leaves `t_min` and the normal unchanged,
or (when the axis is not parallel) sets them together to the parameter of the
min or max plane of this axis and the matching face normal. -/
theorem slabStep_cases (aO aD aMin aMax : ℝ) (nMin nMax : Vec3) (st st' : SlabState)
    (h : slabStep aO aD aMin aMax nMin nMax st = some st') :
    (st'.t_min = st.t_min ∧ st'.normal = st.normal) ∨
    (¬ |aD| < 1e-6 ∧
      ((st'.normal = nMin ∧ st'.t_min = (((aMin - aO) / aD : ℝ) : EReal)) ∨
       (st'.normal = nMax ∧ st'.t_min = (((aMax - aO) / aD : ℝ) : EReal)))) := by
  simp only [slabStep] at h
  split_ifs at h
  all_goals rw [Option.some_inj] at h
  all_goals subst h
  all_goals
    try exact Or.inl ⟨rfl, rfl⟩
  all_goals
    try exact Or.inr ⟨by assumption, Or.inl ⟨rfl, rfl⟩⟩
  all_goals
    try exact Or.inr ⟨by assumption, Or.inr ⟨rfl, rfl⟩⟩

theorem Ray.at_x_solve (r : Ray) (aVal : ℝ) (h : r.direction.x ≠ 0) :
    (r.at ((aVal - r.origin.x) / r.direction.x)).x = aVal := by
  unfold Ray.at
  simp only [Vec3.add_def, Vec3.mul_def]
  field_simp

theorem Ray.at_y_solve (r : Ray) (aVal : ℝ) (h : r.direction.y ≠ 0) :
    (r.at ((aVal - r.origin.y) / r.direction.y)).y = aVal := by
  unfold Ray.at
  simp only [Vec3.add_def, Vec3.mul_def]
  field_simp

theorem Ray.at_z_solve (r : Ray) (aVal : ℝ) (h : r.direction.z ≠ 0) :
    (r.at ((aVal - r.origin.z) / r.direction.z)).z = aVal := by
  unfold Ray.at
  simp only [Vec3.add_def, Vec3.mul_def]
  field_simp

theorem slabStep_dir_ne_zero (aD : ℝ) (h : ¬ |aD| < 1e-6) : aD ≠ 0 := by
  intro h0
  apply h
  rw [h0]
  norm_num

/-- C4: when the slab scan of the box succeeds, the intersection returns
`t_min` (latest slab entry) when `t_min > 1e-4`, else `t_max` (earliest slab
exit) when `t_max > 1e-4`, else no hit — and in *both* hit branches the normal
is the same recorded one, which (when any axis updated it) is the entry-face
normal: the outward normal of a face that the ray point at parameter `t_min`
lies on. -/
theorem C4_cube_selection_and_entry_normal (c : Cube) (ray : Ray) (st : SlabState)
    (hslab : c.slab ray = some st) :
    (st.t_min > ((1e-4 : ℝ) : EReal) → c.intersectT ray = some (st.t_min, st.normal)) ∧
    (¬ st.t_min > ((1e-4 : ℝ) : EReal) → st.t_max > ((1e-4 : ℝ) : EReal) →
      c.intersectT ray = some (st.t_max, st.normal)) ∧
    (¬ st.t_min > ((1e-4 : ℝ) : EReal) → ¬ st.t_max > ((1e-4 : ℝ) : EReal) →
      c.intersectT ray = none) ∧
    (st.normal ≠ Vec3.zero →
      ∃ tr : ℝ, st.t_min = (tr : EReal) ∧ c.onEntryFace ray tr st.normal) := by
  refine ⟨?_, ?_, ?_, ?_⟩
  · intro h1
    simp only [Cube.intersectT, hslab]
    rw [if_pos h1]
  · intro h1 h2
    simp only [Cube.intersectT, hslab]
    rw [if_neg h1, if_pos h2]
  · intro h1 h2
    simp only [Cube.intersectT, hslab]
    rw [if_neg h1, if_neg h2]
  · unfold Cube.slab at hslab
    obtain ⟨stx, hx, hyz⟩ := Option.bind_eq_some.mp hslab
    obtain ⟨sty, hy, hz⟩ := Option.bind_eq_some.mp hyz
    have hinv1 : stx.normal ≠ Vec3.zero →
        ∃ tr : ℝ, stx.t_min = (tr : EReal) ∧ c.onEntryFace ray tr stx.normal := by
      intro hn
      rcases slabStep_cases _ _ _ _ _ _ _ _ hx with ⟨ht, hnrm⟩ | ⟨hnd, hset⟩
      · rw [hnrm] at hn
        exact absurd rfl hn
      · have hD := slabStep_dir_ne_zero _ hnd
        rcases hset with ⟨hnrm, ht⟩ | ⟨hnrm, ht⟩
        · exact ⟨_, ht, Or.inl ⟨hnrm, Ray.at_x_solve ray c.min.x hD⟩⟩
        · exact ⟨_, ht, Or.inr (Or.inl ⟨hnrm, Ray.at_x_solve ray c.max.x hD⟩)⟩
    have hinv2 : sty.normal ≠ Vec3.zero →
        ∃ tr : ℝ, sty.t_min = (tr : EReal) ∧ c.onEntryFace ray tr sty.normal := by
      intro hn
      rcases slabStep_cases _ _ _ _ _ _ _ _ hy with ⟨ht, hnrm⟩ | ⟨hnd, hset⟩
      · obtain ⟨tr, htr, hface⟩ := hinv1 (by rwa [hnrm] at hn)
        exact ⟨tr, by rw [ht, htr], by rwa [hnrm]⟩
      · have hD := slabStep_dir_ne_zero _ hnd
        rcases hset with ⟨hnrm, ht⟩ | ⟨hnrm, ht⟩
        · exact ⟨_, ht, Or.inr (Or.inr (Or.inl ⟨hnrm, Ray.at_y_solve ray c.min.y hD⟩))⟩
        · exact ⟨_, ht, Or.inr (Or.inr (Or.inr (Or.inl ⟨hnrm, Ray.at_y_solve ray c.max.y hD⟩)))⟩
    intro hn
    rcases slabStep_cases _ _ _ _ _ _ _ _ hz with ⟨ht, hnrm⟩ | ⟨hnd, hset⟩
    · obtain ⟨tr, htr, hface⟩ := hinv2 (by rwa [hnrm] at hn)
      exact ⟨tr, by rw [ht, htr], by rwa [hnrm]⟩
    · have hD := slabStep_dir_ne_zero _ hnd
      rcases hset with ⟨hnrm, ht⟩ | ⟨hnrm, ht⟩
      · exact ⟨_, ht, Or.inr (Or.inr (Or.inr (Or.inr (Or.inl
          ⟨hnrm, Ray.at_z_solve ray c.min.z hD⟩))))⟩
      · exact ⟨_, ht, Or.inr (Or.inr (Or.inr (Or.inr (Or.inr
          ⟨hnrm, Ray.at_z_solve ray c.max.z hD⟩))))⟩

/-- Witness for C4: a ray starting inside the unit box exits at `t_max = 1/2`
through the face `z = -1/2`, yet the returned normal is the recorded
entry-face normal `(0,0,1)` (the face `z = 1/2`, behind the origin), not the
exit-face normal. -/
theorem C4_cube_selection_and_entry_normal_witness :
    Cube.intersectT ⟨⟨-(1/2), -(1/2), -(1/2)⟩, ⟨1/2, 1/2, 1/2⟩, ⟨⟨1, 1, 1⟩, 0, 1, 0⟩,
        Transform.new⟩ ⟨⟨0, 0, 0⟩, ⟨0, 0, -1⟩⟩ = some ((((1:ℝ)/2 : ℝ) : EReal), ⟨0, 0, 1⟩) ∧
    ∃ tr : ℝ, ((-(1/2) : ℝ) : EReal) = (tr : EReal) ∧
      Cube.onEntryFace ⟨⟨-(1/2), -(1/2), -(1/2)⟩, ⟨1/2, 1/2, 1/2⟩, ⟨⟨1, 1, 1⟩, 0, 1, 0⟩,
        Transform.new⟩ ⟨⟨0, 0, 0⟩, ⟨0, 0, -1⟩⟩ tr ⟨0, 0, 1⟩ := by
  have hslab :
      Cube.slab ⟨⟨-(1/2), -(1/2), -(1/2)⟩, ⟨1/2, 1/2, 1/2⟩, ⟨⟨1, 1, 1⟩, 0, 1, 0⟩, Transform.new⟩
        ⟨⟨0, 0, 0⟩, ⟨0, 0, -1⟩⟩ =
      some ⟨((-(1/2) : ℝ) : EReal), (((1:ℝ)/2 : ℝ) : EReal), ⟨0, 0, 1⟩⟩ := by
    simp only [Cube.slab, slabStep]
    norm_num [← EReal.coe_neg, EReal.bot_lt_coe, EReal.coe_lt_top, EReal.coe_le_coe_iff,
      EReal.coe_lt_coe_iff, EReal.coe_eq_coe_iff, Vec3.zero]
  have H := C4_cube_selection_and_entry_normal
    ⟨⟨-(1/2), -(1/2), -(1/2)⟩, ⟨1/2, 1/2, 1/2⟩, ⟨⟨1, 1, 1⟩, 0, 1, 0⟩, Transform.new⟩
    ⟨⟨0, 0, 0⟩, ⟨0, 0, -1⟩⟩ ⟨((-(1/2) : ℝ) : EReal), (((1:ℝ)/2 : ℝ) : EReal), ⟨0, 0, 1⟩⟩ hslab
  refine ⟨H.2.1 ?_ ?_, H.2.2.2 ?_⟩
  · rw [not_lt]
    exact EReal.coe_le_coe_iff.mpr (by norm_num)
  · exact EReal.coe_lt_coe_iff.mpr (by norm_num)
  · simp [Vec3.zero]

theorem summarizes_none : summarizes none [] := by
  constructor
  · simp
  · intro tn' h
    exact Option.noConfusion h

theorem summarizes_considerHit {acc : Option (ℝ × Vec3)} {l : List (ℝ × Vec3)}
    (t : ℝ) (n : Vec3) (valid : Prop) [Decidable valid] (h : summarizes acc l) :
    summarizes (considerHit acc t n valid) (l ++ if valid then [(t, n)] else []) := by
  by_cases hv : valid
  · unfold considerHit
    rw [if_pos hv, if_pos hv]
    cases acc with
    | none =>
      have hl : l = [] := h.1.mp rfl
      subst hl
      refine ⟨by simp, ?_⟩
      intro tn' htn'
      rw [Option.some_inj] at htn'
      subst htn'
      simp
    | some best =>
      have hbest := h.2 best rfl
      change summarizes (if t < best.1 then some (t, n) else some best) (l ++ [(t, n)])
      by_cases hlt : t < best.1
      · rw [if_pos hlt]
        refine ⟨by simp, ?_⟩
        intro tn' htn'
        rw [Option.some_inj] at htn'
        subst htn'
        refine ⟨by simp, ?_⟩
        intro tn htn
        rcases List.mem_append.mp htn with hin | hin
        · exact le_of_lt (lt_of_lt_of_le hlt (hbest.2 tn hin))
        · rw [List.mem_singleton] at hin
          subst hin
          exact le_refl _
      · rw [if_neg hlt]
        refine ⟨by simp, ?_⟩
        intro tn' htn'
        rw [Option.some_inj] at htn'
        subst htn'
        refine ⟨List.mem_append_left _ hbest.1, ?_⟩
        intro tn htn
        rcases List.mem_append.mp htn with hin | hin
        · exact hbest.2 tn hin
        · rw [List.mem_singleton] at hin
          subst hin
          exact not_lt.mp hlt
  · unfold considerHit
    rw [if_neg hv, if_neg hv]
    simpa using h

theorem Cylinder.scan_summarizes (cy : Cylinder) (ray : Ray) :
    summarizes (cy.scan ray) (cy.candidates ray) := by
  unfold Cylinder.scan Cylinder.candidates
  exact summarizes_considerHit _ _ _ (summarizes_considerHit _ _ _
    (summarizes_considerHit _ _ _ (summarizes_considerHit _ _ _ summarizes_none)))

/-- The lateral quadratic evaluated along the ray: squared horizontal distance
from the axis minus `radius²` at parameter `t`. -/
theorem Cylinder.quadratic_at (cy : Cylinder) (ray : Ray) (t : ℝ) :
    ((ray.at t).x - cy.center.x) * ((ray.at t).x - cy.center.x)
      + ((ray.at t).z - cy.center.z) * ((ray.at t).z - cy.center.z)
      - cy.radius * cy.radius
    = cy.qa ray * (t * t) + cy.qb ray * t + cy.qc ray := by
  unfold Cylinder.qa Cylinder.qb Cylinder.qc Ray.at
  simp only [Vec3.add_def, Vec3.mul_def]
  ring

/-- When the lateral discriminant is negative the projected ray stays strictly
outside the cylinder radius, so no cap candidate can be valid. -/
theorem Cylinder.capValid_needs_nonneg_disc (cy : Cylinder) (ray : Ray) (cap_y : ℝ)
    (hd : cy.disc ray < 0) : ¬ cy.capValid ray cap_y := by
  rintro ⟨hdy, ht, hr⟩
  have ha0 : 0 ≤ cy.qa ray := add_nonneg (mul_self_nonneg _) (mul_self_nonneg _)
  rcases ha0.eq_or_lt with hz | hpos
  · have hq : ray.direction.x * ray.direction.x + ray.direction.z * ray.direction.z = 0 := by
      unfold Cylinder.qa at hz
      linarith
    have hdx : ray.direction.x = 0 := by
      have h1 : ray.direction.x * ray.direction.x = 0 := by
        have := mul_self_nonneg ray.direction.x
        have := mul_self_nonneg ray.direction.z
        linarith
      exact mul_self_eq_zero.mp h1
    have hdz : ray.direction.z = 0 := by
      have h1 : ray.direction.z * ray.direction.z = 0 := by
        have := mul_self_nonneg ray.direction.x
        have := mul_self_nonneg ray.direction.z
        linarith
      exact mul_self_eq_zero.mp h1
    have hb : cy.qb ray = 0 := by
      unfold Cylinder.qb
      rw [hdx, hdz]
      ring
    have hd0 : cy.disc ray = 0 := by
      unfold Cylinder.disc
      rw [hb, ← hz]
      ring
    linarith
  · have hq := cy.quadratic_at ray (cy.capT ray cap_y)
    have hle : cy.qa ray * (cy.capT ray cap_y * cy.capT ray cap_y)
        + cy.qb ray * cy.capT ray cap_y + cy.qc ray ≤ 0 := by
      rw [← hq]
      linarith
    unfold Cylinder.disc at hd
    nlinarith [sq_nonneg (2 * cy.qa ray * cy.capT ray cap_y + cy.qb ray)]

/-- C5: the cylinder intersection returns no hit exactly when there is no
valid wall or cap candidate, and otherwise returns a candidate (parameter and
normal) whose `t` is minimal among all candidates. -/
theorem C5_cylinder_min_candidate (cy : Cylinder) (ray : Ray) :
    (cy.intersect ray = none ↔ cy.candidates ray = []) ∧
    (∀ h, cy.intersect ray = some h →
      (h.t, h.normal) ∈ cy.candidates ray ∧ ∀ tn ∈ cy.candidates ray, h.t ≤ tn.1) := by
  have hsum := cy.scan_summarizes ray
  by_cases hd : cy.disc ray < 0
  · have hcand : cy.candidates ray = [] := by
      unfold Cylinder.candidates
      rw [if_neg (fun hv : cy.wallValid ray (cy.root1 ray) => absurd hv.1 (not_le.mpr hd)),
        if_neg (fun hv : cy.wallValid ray (cy.root2 ray) => absurd hv.1 (not_le.mpr hd)),
        if_neg (cy.capValid_needs_nonneg_disc ray _ hd),
        if_neg (cy.capValid_needs_nonneg_disc ray _ hd)]
      simp
    refine ⟨⟨fun _ => hcand, fun _ => ?_⟩, fun h hh => ?_⟩
    · unfold Cylinder.intersect
      rw [if_pos hd]
    · unfold Cylinder.intersect at hh
      rw [if_pos hd] at hh
      exact Option.noConfusion hh
  · constructor
    · unfold Cylinder.intersect
      rw [if_neg hd]
      constructor
      · intro hnone
        rcases hscan : cy.scan ray with _ | tn
        · exact hsum.1.mp hscan
        · rw [hscan] at hnone
          exact Option.noConfusion hnone
      · intro hl
        rw [hsum.1.mpr hl]
    · intro h hh
      unfold Cylinder.intersect at hh
      rw [if_neg hd] at hh
      rcases hscan : cy.scan ray with _ | tn
      · rw [hscan] at hh
        exact Option.noConfusion hh
      · rw [hscan] at hh
        rw [Option.some_inj] at hh
        have hmem := hsum.2 tn hscan
        subst hh
        exact ⟨by simpa using hmem.1, by simpa using hmem.2⟩

theorem considerHit_none_valid (t : ℝ) (n : Vec3) (valid : Prop) [Decidable valid]
    (hv : valid) : considerHit none t n valid = some (t, n) := by
  unfold considerHit
  rw [if_pos hv]

theorem considerHit_keep (best : ℝ × Vec3) (t : ℝ) (n : Vec3) (valid : Prop)
    [Decidable valid] (h : ¬ t < best.1) : considerHit (some best) t n valid = some best := by
  unfold considerHit
  by_cases hv : valid
  · rw [if_pos hv]
    show (if t < best.1 then some (t, n) else some best) = some best
    rw [if_neg h]
  · rw [if_neg hv]

theorem considerHit_invalid (acc : Option (ℝ × Vec3)) (t : ℝ) (n : Vec3) (valid : Prop)
    [Decidable valid] (h : ¬ valid) : considerHit acc t n valid = acc := by
  unfold considerHit
  rw [if_neg h]

theorem sqrt_four_eq_two : Real.sqrt 4 = 2 := by
  rw [show (4 : ℝ) = 2 ^ 2 by norm_num, Real.sqrt_sq (by norm_num : (0:ℝ) ≤ 2)]

/-- Witness for C5: the cylinder of radius 1, height 2 centered at `(0,0,-2)`
hit from the origin along `-z` returns the wall candidate `t = 1` with radial
normal `(0,0,1)`, minimal among the candidates (`t = 1` and `t = 3`). -/
theorem C5_cylinder_min_candidate_witness :
    ((1 : ℝ), (⟨0, 0, 1⟩ : Vec3)) ∈
      Cylinder.candidates ⟨⟨0, 0, -2⟩, 1, 2, ⟨⟨1, 1, 1⟩, 0, 1, 0⟩, Transform.new⟩
        ⟨⟨0, 0, 0⟩, ⟨0, 0, -1⟩⟩ ∧
    ∀ tn ∈ Cylinder.candidates ⟨⟨0, 0, -2⟩, 1, 2, ⟨⟨1, 1, 1⟩, 0, 1, 0⟩, Transform.new⟩
        ⟨⟨0, 0, 0⟩, ⟨0, 0, -1⟩⟩, (1 : ℝ) ≤ tn.1 := by
  have hqa : Cylinder.qa ⟨⟨0, 0, -2⟩, 1, 2, ⟨⟨1, 1, 1⟩, 0, 1, 0⟩, Transform.new⟩
      ⟨⟨0, 0, 0⟩, ⟨0, 0, -1⟩⟩ = 1 := by
    norm_num [Cylinder.qa]
  have hqb : Cylinder.qb ⟨⟨0, 0, -2⟩, 1, 2, ⟨⟨1, 1, 1⟩, 0, 1, 0⟩, Transform.new⟩
      ⟨⟨0, 0, 0⟩, ⟨0, 0, -1⟩⟩ = -4 := by
    norm_num [Cylinder.qb]
  have hqc : Cylinder.qc ⟨⟨0, 0, -2⟩, 1, 2, ⟨⟨1, 1, 1⟩, 0, 1, 0⟩, Transform.new⟩
      ⟨⟨0, 0, 0⟩, ⟨0, 0, -1⟩⟩ = 3 := by
    norm_num [Cylinder.qc]
  have hdisc : Cylinder.disc ⟨⟨0, 0, -2⟩, 1, 2, ⟨⟨1, 1, 1⟩, 0, 1, 0⟩, Transform.new⟩
      ⟨⟨0, 0, 0⟩, ⟨0, 0, -1⟩⟩ = 4 := by
    norm_num [Cylinder.disc, hqa, hqb, hqc]
  have hroot1 : Cylinder.root1 ⟨⟨0, 0, -2⟩, 1, 2, ⟨⟨1, 1, 1⟩, 0, 1, 0⟩, Transform.new⟩
      ⟨⟨0, 0, 0⟩, ⟨0, 0, -1⟩⟩ = 1 := by
    norm_num [Cylinder.root1, hqa, hqb, hdisc, sqrt_four_eq_two]
  have hroot2 : Cylinder.root2 ⟨⟨0, 0, -2⟩, 1, 2, ⟨⟨1, 1, 1⟩, 0, 1, 0⟩, Transform.new⟩
      ⟨⟨0, 0, 0⟩, ⟨0, 0, -1⟩⟩ = 3 := by
    norm_num [Cylinder.root2, hqa, hqb, hdisc, sqrt_four_eq_two]
  have hat1 : Ray.at ⟨⟨0, 0, 0⟩, ⟨0, 0, -1⟩⟩ 1 = (⟨0, 0, -1⟩ : Vec3) := by
    norm_num [Ray.at]
  have hat3 : Ray.at ⟨⟨0, 0, 0⟩, ⟨0, 0, -1⟩⟩ 3 = (⟨0, 0, -3⟩ : Vec3) := by
    norm_num [Ray.at]
  have hn1 : Cylinder.wallNormal ⟨⟨0, 0, -2⟩, 1, 2, ⟨⟨1, 1, 1⟩, 0, 1, 0⟩, Transform.new⟩
      ⟨⟨0, 0, 0⟩, ⟨0, 0, -1⟩⟩ 1 = (⟨0, 0, 1⟩ : Vec3) := by
    unfold Cylinder.wallNormal
    rw [hat1]
    norm_num [Vec3.normalize, Vec3.length, Real.sqrt_one]
  have hv1 : Cylinder.wallValid ⟨⟨0, 0, -2⟩, 1, 2, ⟨⟨1, 1, 1⟩, 0, 1, 0⟩, Transform.new⟩
      ⟨⟨0, 0, 0⟩, ⟨0, 0, -1⟩⟩ 1 := by
    refine ⟨by rw [hdisc]; norm_num, by norm_num, ?_, ?_⟩
    · rw [hat1]
      norm_num
    · rw [hat1]
      norm_num
  have hcvT : ¬ Cylinder.capValid ⟨⟨0, 0, -2⟩, 1, 2, ⟨⟨1, 1, 1⟩, 0, 1, 0⟩, Transform.new⟩
      ⟨⟨0, 0, 0⟩, ⟨0, 0, -1⟩⟩
      (Cylinder.capTop ⟨⟨0, 0, -2⟩, 1, 2, ⟨⟨1, 1, 1⟩, 0, 1, 0⟩, Transform.new⟩) := by
    rintro ⟨h1, -, -⟩
    norm_num at h1
  have hcvB : ¬ Cylinder.capValid ⟨⟨0, 0, -2⟩, 1, 2, ⟨⟨1, 1, 1⟩, 0, 1, 0⟩, Transform.new⟩
      ⟨⟨0, 0, 0⟩, ⟨0, 0, -1⟩⟩
      (Cylinder.capBottom ⟨⟨0, 0, -2⟩, 1, 2, ⟨⟨1, 1, 1⟩, 0, 1, 0⟩, Transform.new⟩) := by
    rintro ⟨h1, -, -⟩
    norm_num at h1
  have hscan : Cylinder.scan ⟨⟨0, 0, -2⟩, 1, 2, ⟨⟨1, 1, 1⟩, 0, 1, 0⟩, Transform.new⟩
      ⟨⟨0, 0, 0⟩, ⟨0, 0, -1⟩⟩ = some (1, ⟨0, 0, 1⟩) := by
    unfold Cylinder.scan
    rw [hroot1, hroot2, hn1]
    rw [considerHit_none_valid _ _ _ hv1]
    rw [considerHit_keep _ _ _ _ (by norm_num)]
    rw [considerHit_invalid _ _ _ _ hcvT]
    rw [considerHit_invalid _ _ _ _ hcvB]
  have hint : Cylinder.intersect ⟨⟨0, 0, -2⟩, 1, 2, ⟨⟨1, 1, 1⟩, 0, 1, 0⟩, Transform.new⟩
      ⟨⟨0, 0, 0⟩, ⟨0, 0, -1⟩⟩ =
      some ⟨1, Ray.at ⟨⟨0, 0, 0⟩, ⟨0, 0, -1⟩⟩ 1, ⟨0, 0, 1⟩, ⟨⟨1, 1, 1⟩, 0, 1, 0⟩⟩ := by
    unfold Cylinder.intersect
    rw [if_neg (by rw [hdisc]; norm_num : ¬ Cylinder.disc
      ⟨⟨0, 0, -2⟩, 1, 2, ⟨⟨1, 1, 1⟩, 0, 1, 0⟩, Transform.new⟩ ⟨⟨0, 0, 0⟩, ⟨0, 0, -1⟩⟩ < 0)]
    rw [hscan]
  exact (C5_cylinder_min_candidate ⟨⟨0, 0, -2⟩, 1, 2, ⟨⟨1, 1, 1⟩, 0, 1, 0⟩, Transform.new⟩
    ⟨⟨0, 0, 0⟩, ⟨0, 0, -1⟩⟩).2 ⟨1, Ray.at ⟨⟨0, 0, 0⟩, ⟨0, 0, -1⟩⟩ 1, ⟨0, 0, 1⟩,
    ⟨⟨1, 1, 1⟩, 0, 1, 0⟩⟩ hint

theorem closerHit_eq_none (ray : Ray) (acc : Option HitInfo) (obj : Ray → Option HitInfo) :
    closerHit ray acc obj = none ↔ acc = none ∧ obj ray = none := by
  unfold closerHit
  rcases ho : obj ray with _ | hit
  · simp
  · rcases acc with _ | best
    · simp
    · show (if hit.t < best.t then some hit else some best) = none ↔
        some best = none ∧ some hit = none
      split_ifs <;> simp

theorem closerHit_le (ray : Ray) (acc : Option HitInfo) (obj : Ray → Option HitInfo)
    (c : HitInfo) (h : closerHit ray acc obj = some c) :
    (∀ b, acc = some b → c.t ≤ b.t) ∧ (∀ hit, obj ray = some hit → c.t ≤ hit.t) := by
  unfold closerHit at h
  rcases ho : obj ray with _ | hit <;> rw [ho] at h
  · rcases acc with _ | best
    · exact Option.noConfusion h
    · rw [Option.some_inj] at h
      subst h
      refine ⟨fun b hb => ?_, fun hit hh => ?_⟩
      · rw [Option.some_inj] at hb
        rw [hb]
      · exact Option.noConfusion hh
  · rcases acc with _ | best
    · rw [Option.some_inj] at h
      subst h
      refine ⟨fun b hb => Option.noConfusion hb, fun hit2 hh => ?_⟩
      rw [Option.some_inj] at hh
      rw [hh]
    · rw [show (match some best with
          | some b => if hit.t < b.t then some hit else some best
          | none => some hit) = if hit.t < best.t then some hit else some best from rfl] at h
      split_ifs at h with hlt <;> rw [Option.some_inj] at h <;> subst h
      · refine ⟨fun b hb => ?_, fun hit2 hh => ?_⟩
        · rw [Option.some_inj] at hb
          subst hb
          exact le_of_lt hlt
        · rw [Option.some_inj] at hh
          rw [hh]
      · refine ⟨fun b hb => ?_, fun hit2 hh => ?_⟩
        · rw [Option.some_inj] at hb
          subst hb
          exact le_refl _
        · rw [Option.some_inj] at hh
          rw [← hh]
          exact not_lt.mp hlt

theorem closerHit_some_of_obj (ray : Ray) (acc : Option HitInfo)
    (obj : Ray → Option HitInfo) (hit : HitInfo) (ho : obj ray = some hit) :
    ∃ c, closerHit ray acc obj = some c := by
  unfold closerHit
  rw [ho]
  rcases acc with _ | best
  · exact ⟨hit, rfl⟩
  · show ∃ c, (if hit.t < best.t then some hit else some best) = some c
    split_ifs <;> exact ⟨_, rfl⟩

theorem closerHit_some_of_acc (ray : Ray) (acc : Option HitInfo)
    (obj : Ray → Option HitInfo) (b : HitInfo) (hb : acc = some b) :
    ∃ c, closerHit ray acc obj = some c := by
  subst hb
  unfold closerHit
  rcases ho : obj ray with _ | hit
  · exact ⟨b, rfl⟩
  · show ∃ c, (if hit.t < b.t then some hit else some b) = some c
    split_ifs <;> exact ⟨_, rfl⟩

theorem foldl_closerHit_min (ray : Ray) (l : List (Ray → Option HitInfo)) :
    ∀ acc h, l.foldl (closerHit ray) acc = some h →
      (∀ o ∈ l, ∀ h', o ray = some h' → h.t ≤ h'.t) ∧
      (∀ b, acc = some b → h.t ≤ b.t) := by
  induction l with
  | nil =>
    intro acc h hf
    simp only [List.foldl_nil] at hf
    refine ⟨by simp, fun b hb => ?_⟩
    rw [hf, Option.some_inj] at hb
    rw [hb]
  | cons o rest ih =>
    intro acc h hf
    rw [List.foldl_cons] at hf
    obtain ⟨hrest, hacc⟩ := ih (closerHit ray acc o) h hf
    constructor
    · intro o' ho' h' hh'
      rcases List.mem_cons.mp ho' with rfl | hmem
      · obtain ⟨c, hc⟩ := closerHit_some_of_obj ray acc o' h' hh'
        have h1 := hacc c hc
        have h2 := (closerHit_le ray acc o' c hc).2 h' hh'
        linarith
      · exact hrest o' hmem h' hh'
    · intro b hb
      obtain ⟨c, hc⟩ := closerHit_some_of_acc ray acc o b hb
      have h1 := hacc c hc
      have h2 := (closerHit_le ray acc o c hc).1 b hb
      linarith

theorem foldl_closerHit_first (ray : Ray) (l : List (Ray → Option HitInfo)) :
    ∀ acc h, l.foldl (closerHit ray) acc = some h →
      acc = some h ∨
      ∃ i : ℕ, ∃ oi, l[i]? = some oi ∧ oi ray = some h ∧
        (∀ b, acc = some b → h.t < b.t) ∧
        (∀ j, j < i → ∀ oj, l[j]? = some oj → ∀ h', oj ray = some h' → h.t < h'.t) := by
  induction l with
  | nil =>
    intro acc h hf
    simp only [List.foldl_nil] at hf
    exact Or.inl hf
  | cons o rest ih =>
    intro acc h hf
    rw [List.foldl_cons] at hf
    rcases ih (closerHit ray acc o) h hf with hstep | ⟨i, oi, hoi, hray, hstrict, hearlier⟩
    · unfold closerHit at hstep
      rcases ho : o ray with _ | hit <;> rw [ho] at hstep
      · exact Or.inl hstep
      · rcases hacc : acc with _ | best <;> rw [hacc] at hstep
        · rw [Option.some_inj] at hstep
          subst hstep
          refine Or.inr ⟨0, o, by simp, ho, fun b hb => ?_, fun j hj => absurd hj (Nat.not_lt_zero j)⟩
          exact Option.noConfusion hb
        · rw [show (match some best with
              | some b => if hit.t < b.t then some hit else some best
              | none => some hit) = if hit.t < best.t then some hit else some best from rfl] at hstep
          split_ifs at hstep with hlt <;> rw [Option.some_inj] at hstep
          · subst hstep
            refine Or.inr ⟨0, o, by simp, ho, fun b hb => ?_,
              fun j hj => absurd hj (Nat.not_lt_zero j)⟩
            rw [Option.some_inj] at hb
            rw [← hb]
            exact hlt
          · subst hstep
            exact Or.inl rfl
    · refine Or.inr ⟨i + 1, oi, by simpa using hoi, hray, ?_, ?_⟩
      · intro b hb
        obtain ⟨c, hc⟩ := closerHit_some_of_acc ray acc o b hb
        have h1 := hstrict c hc
        have h2 := (closerHit_le ray acc o c hc).1 b hb
        linarith
      · intro j hj oj hoj h' hh'
        rcases j with _ | j'
        · have hoj0 : oj = o := by simpa using hoj.symm
          subst hoj0
          obtain ⟨c, hc⟩ := closerHit_some_of_obj ray acc oj h' hh'
          have h1 := hstrict c hc
          have h2 := (closerHit_le ray acc oj c hc).2 h' hh'
          linarith
        · exact hearlier j' (Nat.lt_of_succ_lt_succ hj) oj (by simpa using hoj) h' hh'

theorem foldl_closerHit_none (ray : Ray) (l : List (Ray → Option HitInfo)) :
    ∀ acc, l.foldl (closerHit ray) acc = none ↔ (acc = none ∧ ∀ o ∈ l, o ray = none) := by
  induction l with
  | nil =>
    intro acc
    simp
  | cons o rest ih =>
    intro acc
    rw [List.foldl_cons, ih, closerHit_eq_none]
    constructor
    · rintro ⟨⟨h1, h2⟩, h3⟩
      refine ⟨h1, fun o' ho' => ?_⟩
      rcases List.mem_cons.mp ho' with rfl | hm
      · exact h2
      · exact h3 o' hm
    · rintro ⟨h1, h2⟩
      exact ⟨⟨h1, h2 o (List.mem_cons_self o rest)⟩, fun o' hm => h2 o' (List.mem_cons_of_mem o hm)⟩

/-- C3: the scene's nearest-hit query returns `none` exactly when no
primitive reports a hit; otherwise it returns a hit of minimal `t` over all
reported hits, coming from the first-registered primitive achieving that
minimum (every earlier primitive's hit is strictly farther, since the running
comparison uses strict less-than). -/
theorem C3_scene_nearest_hit (s : Scene) (ray : Ray) :
    (s.intersect ray = none ↔ ∀ o ∈ s.objects, o ray = none) ∧
    (∀ h, s.intersect ray = some h →
      (∀ o ∈ s.objects, ∀ h', o ray = some h' → h.t ≤ h'.t) ∧
      ∃ i : ℕ, ∃ oi, s.objects[i]? = some oi ∧ oi ray = some h ∧
        ∀ j, j < i → ∀ oj, s.objects[j]? = some oj →
          ∀ h', oj ray = some h' → h.t < h'.t) := by
  constructor
  · unfold Scene.intersect
    rw [foldl_closerHit_none]
    simp
  · intro h hf
    unfold Scene.intersect at hf
    have hmin := foldl_closerHit_min ray s.objects none h hf
    rcases foldl_closerHit_first ray s.objects none h hf with hcontra | hβ
    · exact Option.noConfusion hcontra
    · obtain ⟨i, oi, h1, h2, _, h4⟩ := hβ
      exact ⟨hmin.1, i, oi, h1, h2, h4⟩

/-- Witness for C3: in a scene with two objects reporting hits at `t = 2` and
`t = 1`, the query returns the `t = 1` hit, and that hit comes from a
registered object. -/
theorem C3_scene_nearest_hit_witness :
    Scene.intersect ⟨[fun _ => some ⟨2, ⟨0, 0, 0⟩, ⟨0, 1, 0⟩, ⟨⟨1, 1, 1⟩, 0, 1, 0⟩⟩,
        fun _ => some ⟨1, ⟨0, 0, 0⟩, ⟨0, 1, 0⟩, ⟨⟨1, 1, 1⟩, 0, 1, 0⟩⟩], [], ⟨0, 0, 0⟩⟩
      ⟨⟨0, 0, 0⟩, ⟨0, 0, -1⟩⟩ = some ⟨1, ⟨0, 0, 0⟩, ⟨0, 1, 0⟩, ⟨⟨1, 1, 1⟩, 0, 1, 0⟩⟩ ∧
    ∃ i : ℕ, ∃ oi, ([fun _ => some ⟨2, ⟨0, 0, 0⟩, ⟨0, 1, 0⟩, ⟨⟨1, 1, 1⟩, 0, 1, 0⟩⟩,
        fun _ => some ⟨1, ⟨0, 0, 0⟩, ⟨0, 1, 0⟩, ⟨⟨1, 1, 1⟩, 0, 1, 0⟩⟩] :
          List (Ray → Option HitInfo))[i]? = some oi ∧
      oi ⟨⟨0, 0, 0⟩, ⟨0, 0, -1⟩⟩ = some ⟨1, ⟨0, 0, 0⟩, ⟨0, 1, 0⟩, ⟨⟨1, 1, 1⟩, 0, 1, 0⟩⟩ := by
  have hint : Scene.intersect ⟨[fun _ => some ⟨2, ⟨0, 0, 0⟩, ⟨0, 1, 0⟩, ⟨⟨1, 1, 1⟩, 0, 1, 0⟩⟩,
      fun _ => some ⟨1, ⟨0, 0, 0⟩, ⟨0, 1, 0⟩, ⟨⟨1, 1, 1⟩, 0, 1, 0⟩⟩], [], ⟨0, 0, 0⟩⟩
      ⟨⟨0, 0, 0⟩, ⟨0, 0, -1⟩⟩ = some ⟨1, ⟨0, 0, 0⟩, ⟨0, 1, 0⟩, ⟨⟨1, 1, 1⟩, 0, 1, 0⟩⟩ := by
    norm_num [Scene.intersect, closerHit]
  obtain ⟨-, i, oi, h1, h2, -⟩ := (C3_scene_nearest_hit _ _).2 _ hint
  exact ⟨hint, i, oi, h1, h2⟩

theorem Vec3.add_zero_v (a : Vec3) : a + Vec3.zero = a := by
  simp [Vec3.zero]

theorem Vec3.zero_add_v (a : Vec3) : Vec3.zero + a = a := by
  simp [Vec3.zero]

theorem Vec3.add_assoc_v (a b c : Vec3) : a + b + c = a + (b + c) := by
  simp only [Vec3.add_def, Vec3.mk.injEq]
  refine ⟨by ring, by ring, by ring⟩

theorem Vec3.sum_cons (a : Vec3) (l : List Vec3) : (a :: l).sum = a + l.sum := rfl

theorem Renderer.shadeStep_eq (rd : Renderer) (scene : Scene) (hit : HitInfo)
    (color : Vec3) (light : Light) :
    rd.shadeStep scene hit color light = color + lightContribution rd scene hit light := by
  simp only [Renderer.shadeStep, lightContribution]
  by_cases h1 : max (hit.normal.dot ((light.position - hit.point).normalize)) 0 > 0
  · by_cases h2 : inShadow scene ⟨hit.point + hit.normal * rd.epsilon,
        (light.position - hit.point).normalize⟩ ((light.position - hit.point).length) rd.epsilon
    · rw [if_pos h1, if_pos h2, if_neg (fun hc => hc.2 h2), Vec3.add_zero_v]
    · rw [if_pos h1, if_neg h2, if_pos ⟨h1, h2⟩]
  · rw [if_neg h1, if_neg (fun hc => h1 hc.1), Vec3.add_zero_v]

theorem foldl_shadeStep_sum (rd : Renderer) (scene : Scene) (hit : HitInfo) (l : List Light) :
    ∀ acc : Vec3, l.foldl (rd.shadeStep scene hit) acc
      = acc + (l.map (lightContribution rd scene hit)).sum := by
  induction l with
  | nil =>
    intro acc
    simp only [List.foldl_nil, List.map_nil, List.sum_nil]
    exact (Vec3.add_zero_v acc).symm
  | cons a l ih =>
    intro acc
    rw [List.foldl_cons, Renderer.shadeStep_eq, ih, List.map_cons, Vec3.sum_cons,
      Vec3.add_assoc_v]

/-- C1: on a scene hit (below the depth guard), the traced color is the sum
over all lights of their contributions — `albedo ⊙ lightColor × intensity ×
diffuseFactor` when `diffuseFactor > 0` and the biased shadow ray reports no
hit closer than `lightDistance − ε`, exactly zero otherwise — plus a single
ambient term `albedo × 0.1` added once. -/
theorem C1_trace_ray_sum_over_lights (rd : Renderer) (scene : Scene) (ray : Ray)
    (depth : ℕ) (hit : HitInfo) (hdepth : depth < rd.max_depth)
    (hhit : scene.intersect ray = some hit) :
    rd.trace_ray ray scene depth =
      (scene.lights.map (lightContribution rd scene hit)).sum
        + hit.material.albedo * (0.1 : ℝ) := by
  unfold Renderer.trace_ray
  rw [if_neg (not_le.mpr hdepth), hhit]
  show rd.shade scene hit = _
  unfold Renderer.shade
  rw [foldl_shadeStep_sum, Vec3.zero_add_v]
  rfl

/-- Witness for C1: one object hit at `t = 1` with normal `(0,1,0)` and white
albedo, one white unit light straight above at distance 5; the shadow ray
misses, so the traced color is `(1,1,1) + (0.1,0.1,0.1)`. -/
theorem C1_trace_ray_sum_over_lights_witness :
    Renderer.new.trace_ray ⟨⟨0, 0, 0⟩, ⟨0, 0, -1⟩⟩
      ⟨[fun r => if r.direction = (⟨0, 0, -1⟩ : Vec3) then
          some ⟨1, ⟨0, 0, 0⟩, ⟨0, 1, 0⟩, ⟨⟨1, 1, 1⟩, 0, 1, 0⟩⟩ else none],
        [⟨⟨0, 5, 0⟩, 1, ⟨1, 1, 1⟩⟩], ⟨0, 0, 0⟩⟩ 0 = ⟨1.1, 1.1, 1.1⟩ := by
  have hhit : Scene.intersect ⟨[fun r => if r.direction = (⟨0, 0, -1⟩ : Vec3) then
      some ⟨1, ⟨0, 0, 0⟩, ⟨0, 1, 0⟩, ⟨⟨1, 1, 1⟩, 0, 1, 0⟩⟩ else none],
      [⟨⟨0, 5, 0⟩, 1, ⟨1, 1, 1⟩⟩], ⟨0, 0, 0⟩⟩ ⟨⟨0, 0, 0⟩, ⟨0, 0, -1⟩⟩ =
      some ⟨1, ⟨0, 0, 0⟩, ⟨0, 1, 0⟩, ⟨⟨1, 1, 1⟩, 0, 1, 0⟩⟩ := by
    norm_num [Scene.intersect, closerHit]
  rw [C1_trace_ray_sum_over_lights Renderer.new _ _ 0 _ (by norm_num [Renderer.new]) hhit]
  have hsub : (Vec3.mk 0 5 0) - (Vec3.mk 0 0 0) = ⟨0, 5, 0⟩ := by
    simp
  have h5 : (Vec3.mk 0 5 0).length = 5 := by
    show Real.sqrt _ = 5
    norm_num
    rw [show (25 : ℝ) = 5 ^ 2 by norm_num, Real.sqrt_sq (by norm_num : (0:ℝ) ≤ 5)]
  have hnorm : (Vec3.mk 0 5 0).normalize = ⟨0, 1, 0⟩ := by
    unfold Vec3.normalize
    rw [h5]
    norm_num
  have hshadow : Scene.intersect ⟨[fun r => if r.direction = (⟨0, 0, -1⟩ : Vec3) then
      some ⟨1, ⟨0, 0, 0⟩, ⟨0, 1, 0⟩, ⟨⟨1, 1, 1⟩, 0, 1, 0⟩⟩ else none],
      [⟨⟨0, 5, 0⟩, 1, ⟨1, 1, 1⟩⟩], ⟨0, 0, 0⟩⟩
      ⟨(⟨0, 0, 0⟩ : Vec3) + (⟨0, 1, 0⟩ : Vec3) * Renderer.new.epsilon, ⟨0, 1, 0⟩⟩ = none := by
    norm_num [Scene.intersect, closerHit, Vec3.mk.injEq]
  have hcontrib : lightContribution Renderer.new
      ⟨[fun r => if r.direction = (⟨0, 0, -1⟩ : Vec3) then
          some ⟨1, ⟨0, 0, 0⟩, ⟨0, 1, 0⟩, ⟨⟨1, 1, 1⟩, 0, 1, 0⟩⟩ else none],
        [⟨⟨0, 5, 0⟩, 1, ⟨1, 1, 1⟩⟩], ⟨0, 0, 0⟩⟩
      ⟨1, ⟨0, 0, 0⟩, ⟨0, 1, 0⟩, ⟨⟨1, 1, 1⟩, 0, 1, 0⟩⟩ ⟨⟨0, 5, 0⟩, 1, ⟨1, 1, 1⟩⟩ =
      ⟨1, 1, 1⟩ := by
    simp only [lightContribution, hsub, hnorm]
    rw [if_pos]
    · norm_num [Vec3.dot]
    · constructor
      · norm_num [Vec3.dot]
      · simp only [inShadow, hshadow]
        exact fun hf => hf
  show _ = (⟨1.1, 1.1, 1.1⟩ : Vec3)
  rw [List.map_cons, List.map_nil, hcontrib, Vec3.sum_cons]
  show (⟨1, 1, 1⟩ : Vec3) + ([].sum) + _ = _
  norm_num [List.sum_nil, show (0 : Vec3).x = 0 from rfl, show (0 : Vec3).y = 0 from rfl,
    show (0 : Vec3).z = 0 from rfl]

theorem min_max_clamp_comm (c : ℝ) : max (min c 1) 0 = min 1 (max 0 c) := by
  rcases le_total c 0 with h | h
  · rw [max_eq_right (le_trans (min_le_left c 1) h), max_eq_left h, min_eq_right zero_le_one]
  · rcases le_total c 1 with h2 | h2
    · rw [min_eq_left h2, max_eq_left h, max_eq_right h, min_eq_right h2]
    · rw [min_eq_right h2, max_eq_left zero_le_one, max_eq_right (le_trans zero_le_one h2),
        min_eq_left h2]

theorem channelByte_eq_clampByte (c : ℝ) : channelByte c = clampByte c := by
  unfold channelByte f64_as_u8 clampByte
  rw [min_max_clamp_comm]
  have h0 : 0 ≤ min 1 (max 0 c) := le_min zero_le_one (le_max_left 0 c)
  have h1 : min 1 (max 0 c) ≤ 1 := min_le_left _ _
  rw [if_neg (not_lt.mpr (by positivity)), if_neg (not_lt.mpr (by nlinarith))]

theorem channelByte_le_255 (c : ℝ) : channelByte c ≤ 255 := by
  unfold channelByte f64_as_u8
  split_ifs with h1 h2
  · exact Nat.zero_le _
  · exact le_refl _
  · rw [Int.toNat_le]
    rw [Int.floor_le_iff]
    push_neg at h2
    norm_num
    linarith

/-- C8: every stored pixel byte is obtained by clamping the traced channel to
`[0,1]` first and then taking round-toward-zero of `255 ×` the clamped value
(the code's `min`-then-`max` with a saturating cast agrees with this), and
every stored byte fits in 8 bits. -/
theorem C8_render_clamp_then_scale (rd : Renderer) (scene : Scene) (camera : Camera)
    (width height : ℕ) :
    (rd.render scene camera width height).pixels =
      ((List.range height).flatMap fun y =>
        (List.range width).flatMap fun x =>
          [clampByte (rd.trace_ray (camera.get_ray ((x : ℝ) / (width : ℝ))
              (((height - 1 - y : ℕ) : ℝ) / (height : ℝ))) scene 0).x,
           clampByte (rd.trace_ray (camera.get_ray ((x : ℝ) / (width : ℝ))
              (((height - 1 - y : ℕ) : ℝ) / (height : ℝ))) scene 0).y,
           clampByte (rd.trace_ray (camera.get_ray ((x : ℝ) / (width : ℝ))
              (((height - 1 - y : ℕ) : ℝ) / (height : ℝ))) scene 0).z]) ∧
    ∀ b ∈ (rd.render scene camera width height).pixels, b ≤ 255 := by
  have hfun : channelByte = clampByte := funext channelByte_eq_clampByte
  constructor
  · simp only [Renderer.render]
    rw [hfun]
  · intro b hb
    simp only [Renderer.render, List.mem_flatMap, List.mem_cons, List.mem_singleton,
      List.not_mem_nil, or_false] at hb
    obtain ⟨y, -, x, -, hb⟩ := hb
    rcases hb with rfl | rfl | rfl <;> exact channelByte_le_255 _

/-- Witness for C8 at a 1×1 render of an empty scene: the single pixel's first
byte is in the buffer and bounded by 255. -/
theorem C8_render_clamp_then_scale_witness :
    channelByte ((Renderer.new.trace_ray
      (Camera.get_ray ⟨⟨0, 0, 0⟩, ⟨-1, -1, -1⟩, ⟨2, 0, 0⟩, ⟨0, 2, 0⟩⟩ ((0 : ℝ) / (1 : ℕ))
        (((1 - 1 - 0 : ℕ) : ℝ) / (1 : ℕ)))
      ⟨[], [], ⟨1/2, 1/2, 1/2⟩⟩ 0).x) ≤ 255 := by
  refine (C8_render_clamp_then_scale Renderer.new ⟨[], [], ⟨1/2, 1/2, 1/2⟩⟩
    ⟨⟨0, 0, 0⟩, ⟨-1, -1, -1⟩, ⟨2, 0, 0⟩, ⟨0, 2, 0⟩⟩ 1 1).2 _ ?_
  simp [Renderer.render]

theorem writePixels_pixels (ps : List (ℕ × ℕ × ℕ)) :
    ∀ wr : PpmWriter, (writePixels wr ps).pixels
      = wr.pixels ++ ps.flatMap fun p => [p.1, p.2.1, p.2.2] := by
  induction ps with
  | nil =>
    intro wr
    simp [writePixels]
  | cons p ps ih =>
    intro wr
    show (writePixels (wr.write_pixel p.1 p.2.1 p.2.2) ps).pixels = _
    rw [ih]
    simp [PpmWriter.write_pixel]

theorem writePixels_width (ps : List (ℕ × ℕ × ℕ)) :
    ∀ wr : PpmWriter, (writePixels wr ps).width = wr.width ∧ (writePixels wr ps).height = wr.height := by
  induction ps with
  | nil => intro wr; exact ⟨rfl, rfl⟩
  | cons p ps ih =>
    intro wr
    exact ih (wr.write_pixel p.1 p.2.1 p.2.2)

theorem chunks3_flatMap (ps : List (ℕ × ℕ × ℕ)) :
    chunks3 (ps.flatMap fun p => [p.1, p.2.1, p.2.2]) = ps.map fun p => [p.1, p.2.1, p.2.2] := by
  induction ps with
  | nil => rfl
  | cons p ps ih =>
    simp only [List.flatMap_cons, List.cons_append, List.nil_append, List.map_cons]
    rw [show chunks3 (p.1 :: p.2.1 :: p.2.2 :: ps.flatMap fun q => [q.1, q.2.1, q.2.2])
        = [p.1, p.2.1, p.2.2] :: chunks3 (ps.flatMap fun q => [q.1, q.2.1, q.2.2]) from rfl]
    rw [ih]

/-- C9: the encoder output is exactly the three header lines `P3`,
`{width} {height}`, `255`, followed by one `"R G B"` line per written pixel in
write order; and the 2×2 buffer `(255,0,0),(0,255,0),(0,0,255),(255,255,255)`
serializes to exactly that header and those four lines. -/
theorem C9_ppm_serialization :
    (∀ (w h : ℕ) (ps : List (ℕ × ℕ × ℕ)),
      (writePixels (PpmWriter.new w h) ps).to_string =
        "P3\n" ++ (Nat.repr w ++ " " ++ Nat.repr h ++ "\n") ++ "255\n" ++
          String.join (ps.map fun p =>
            Nat.repr p.1 ++ " " ++ Nat.repr p.2.1 ++ " " ++ Nat.repr p.2.2 ++ "\n")) ∧
    (writePixels (PpmWriter.new 2 2)
        [(255, 0, 0), (0, 255, 0), (0, 0, 255), (255, 255, 255)]).to_string =
      "P3\n2 2\n255\n255 0 0\n0 255 0\n0 0 255\n255 255 255\n" := by
  constructor
  · intro w h ps
    unfold PpmWriter.to_string
    rw [writePixels_pixels]
    rw [show (PpmWriter.new w h).pixels = [] from rfl, List.nil_append]
    rw [chunks3_flatMap, List.map_map]
    rw [show (writePixels (PpmWriter.new w h) ps).width = w from ((writePixels_width ps _).1 : _)]
    rw [show (writePixels (PpmWriter.new w h) ps).height = h from ((writePixels_width ps _).2 : _)]
    rfl
  · rfl

/-- C10: the intersect operations of `Plane`, `Cube`, and `Cylinder` never
read their `transform` field — for any two placements the results coincide on
every ray — while `Sphere::intersect` does read it: a concrete translated
sphere intersects differently from its identity-placed twin. -/
theorem C10_transform_unused_by_plane_cube_cylinder :
    (∀ (point normal : Vec3) (m : Material) (tr₁ tr₂ : Transform) (ray : Ray),
      Plane.intersect ⟨point, normal, m, tr₁⟩ ray
        = Plane.intersect ⟨point, normal, m, tr₂⟩ ray) ∧
    (∀ (cmin cmax : Vec3) (m : Material) (tr₁ tr₂ : Transform) (ray : Ray),
      Cube.intersect ⟨cmin, cmax, m, tr₁⟩ ray = Cube.intersect ⟨cmin, cmax, m, tr₂⟩ ray) ∧
    (∀ (center : Vec3) (radius height : ℝ) (m : Material) (tr₁ tr₂ : Transform) (ray : Ray),
      Cylinder.intersect ⟨center, radius, height, m, tr₁⟩ ray
        = Cylinder.intersect ⟨center, radius, height, m, tr₂⟩ ray) ∧
    Sphere.intersect ⟨⟨0, 0, -3⟩, 1, ⟨⟨1, 1, 1⟩, 0, 1, 0⟩, Transform.new⟩
        ⟨⟨0, 0, 0⟩, ⟨0, 0, -1⟩⟩ ≠
      Sphere.intersect ⟨⟨0, 0, -3⟩, 1, ⟨⟨1, 1, 1⟩, 0, 1, 0⟩,
        ⟨⟨1000, 0, 0⟩, Vec3.zero, ⟨1, 1, 1⟩⟩⟩ ⟨⟨0, 0, 0⟩, ⟨0, 0, -1⟩⟩ := by
  refine ⟨fun _ _ _ _ _ _ => rfl, fun _ _ _ _ _ _ => rfl, fun _ _ _ _ _ _ _ => rfl, ?_⟩
  have hid : (Sphere.mk ⟨0, 0, -3⟩ 1 ⟨⟨1, 1, 1⟩, 0, 1, 0⟩ Transform.new).identityPlacement :=
    ⟨rfl, rfl⟩
  have hlocal1 : (Sphere.mk ⟨0, 0, -3⟩ 1 ⟨⟨1, 1, 1⟩, 0, 1, 0⟩ Transform.new).localRay
      ⟨⟨0, 0, 0⟩, ⟨0, 0, -1⟩⟩ = ⟨⟨0, 0, 0⟩, ⟨0, 0, -1⟩⟩ := if_pos hid
  have hdisc1 : (Sphere.mk ⟨0, 0, -3⟩ 1 ⟨⟨1, 1, 1⟩, 0, 1, 0⟩ Transform.new).disc
      ⟨⟨0, 0, 0⟩, ⟨0, 0, -1⟩⟩ = 4 := by
    unfold Sphere.disc Sphere.qa Sphere.qb Sphere.qc
    rw [hlocal1]
    norm_num [Vec3.dot]
  have hroot1 : (Sphere.mk ⟨0, 0, -3⟩ 1 ⟨⟨1, 1, 1⟩, 0, 1, 0⟩ Transform.new).root1
      ⟨⟨0, 0, 0⟩, ⟨0, 0, -1⟩⟩ = 2 := by
    unfold Sphere.root1 Sphere.qa Sphere.qb
    rw [hdisc1, hlocal1, sqrt_four_eq_two]
    norm_num [Vec3.dot]
  have hnid : ¬ (Sphere.mk ⟨0, 0, -3⟩ 1 ⟨⟨1, 1, 1⟩, 0, 1, 0⟩
      ⟨⟨1000, 0, 0⟩, Vec3.zero, ⟨1, 1, 1⟩⟩).identityPlacement := by
    rintro ⟨h1, -⟩
    rw [show Vec3.zero = ⟨0, 0, 0⟩ from rfl, Vec3.mk.injEq] at h1
    norm_num at h1
  have hlocal2 : (Sphere.mk ⟨0, 0, -3⟩ 1 ⟨⟨1, 1, 1⟩, 0, 1, 0⟩
      ⟨⟨1000, 0, 0⟩, Vec3.zero, ⟨1, 1, 1⟩⟩).localRay ⟨⟨0, 0, 0⟩, ⟨0, 0, -1⟩⟩
      = ⟨⟨-1000, 0, 0⟩, ⟨0, 0, -1⟩⟩ := by
    unfold Sphere.localRay
    rw [if_neg hnid]
    unfold Transform.inverse_transform_ray
    norm_num
  have hdisc2 : (Sphere.mk ⟨0, 0, -3⟩ 1 ⟨⟨1, 1, 1⟩, 0, 1, 0⟩
      ⟨⟨1000, 0, 0⟩, Vec3.zero, ⟨1, 1, 1⟩⟩).disc ⟨⟨0, 0, 0⟩, ⟨0, 0, -1⟩⟩ < 0 := by
    unfold Sphere.disc Sphere.qa Sphere.qb Sphere.qc
    rw [hlocal2]
    norm_num [Vec3.dot]
  have hsome : Sphere.intersect ⟨⟨0, 0, -3⟩, 1, ⟨⟨1, 1, 1⟩, 0, 1, 0⟩, Transform.new⟩
      ⟨⟨0, 0, 0⟩, ⟨0, 0, -1⟩⟩
      = some ((Sphere.mk ⟨0, 0, -3⟩ 1 ⟨⟨1, 1, 1⟩, 0, 1, 0⟩ Transform.new).mkHit
        ⟨⟨0, 0, 0⟩, ⟨0, 0, -1⟩⟩
        ((Sphere.mk ⟨0, 0, -3⟩ 1 ⟨⟨1, 1, 1⟩, 0, 1, 0⟩ Transform.new).root1
          ⟨⟨0, 0, 0⟩, ⟨0, 0, -1⟩⟩)) := by
    unfold Sphere.intersect
    rw [if_neg (by rw [hdisc1]; norm_num), if_pos (by rw [hroot1]; norm_num)]
  have hnone : Sphere.intersect ⟨⟨0, 0, -3⟩, 1, ⟨⟨1, 1, 1⟩, 0, 1, 0⟩,
      ⟨⟨1000, 0, 0⟩, Vec3.zero, ⟨1, 1, 1⟩⟩⟩ ⟨⟨0, 0, 0⟩, ⟨0, 0, -1⟩⟩ = none := by
    unfold Sphere.intersect
    rw [if_pos hdisc2]
  intro heq
  rw [hsome, hnone] at heq
  exact Option.noConfusion heq

/-- Witness for C10: a concrete plane under two very different placements
reports the same intersection for a concrete ray. -/
theorem C10_transform_unused_by_plane_cube_cylinder_witness :
    Plane.intersect ⟨⟨0, -1, 0⟩, ⟨0, 1, 0⟩, ⟨⟨1, 1, 1⟩, 0, 1, 0⟩, Transform.new⟩
        ⟨⟨0, 0, 0⟩, ⟨0, -1, 0⟩⟩ =
      Plane.intersect ⟨⟨0, -1, 0⟩, ⟨0, 1, 0⟩, ⟨⟨1, 1, 1⟩, 0, 1, 0⟩,
        ⟨⟨5, 5, 5⟩, ⟨1, 2, 3⟩, ⟨2, 2, 2⟩⟩⟩ ⟨⟨0, 0, 0⟩, ⟨0, -1, 0⟩⟩ :=
  C10_transform_unused_by_plane_cube_cylinder.1 ⟨0, -1, 0⟩ ⟨0, 1, 0⟩ ⟨⟨1, 1, 1⟩, 0, 1, 0⟩
    Transform.new ⟨⟨5, 5, 5⟩, ⟨1, 2, 3⟩, ⟨2, 2, 2⟩⟩ ⟨⟨0, 0, 0⟩, ⟨0, -1, 0⟩⟩
